import Mathlib

/-!
Verification development for the Gemma 3 Orbax-to-HF checkpoint converter
(`convert_gemma3_weights_orbax_to_hf.py`).

Strings are embedded as `List Char` (`Str`), mirroring Python string
operations (`startswith` as `<+:`, `endswith` as `<:+`, `in` as `<:+:`,
`find`/slicing as explicit functions).  Numpy arrays are embedded as a
dtype tag plus a shape and a row-major flat data list; `transpose`,
`reshape` and tuple-unpacking are modelled with their numpy success
conditions (returning `Option`, mapped to a shape error).  Dtype casts
(`astype`, `.type`) are modelled as retagging; rounding of values is not
needed by any statement below.
-/

namespace Gemma3

abbrev Str := List Char

def str (s : String) : Str := s.data

/-- Python `s.find(c)`: index of first occurrence, `-1` when absent. -/
def pyFind (l : Str) (c : Char) : Int :=
  match l with
  | [] => -1
  | x :: rest =>
    if x = c then 0
    else if pyFind rest c < 0 then -1 else pyFind rest c + 1

/-- Clamp a Python index (possibly negative) into a `Nat` position. -/
def pyIdx (len : Nat) (i : Int) : Nat :=
  if 0 ≤ i then min len i.toNat else len - min len (-i).toNat

/-- Python `s[:i]`. -/
def pySliceTo (l : Str) (i : Int) : Str := l.take (pyIdx l.length i)

/-- Python `s[i:]`. -/
def pySliceFrom (l : Str) (i : Int) : Str := l.drop (pyIdx l.length i)

inductive DType where
  | float32
  | bfloat16
  | float16
  | int8
  | other
deriving DecidableEq

/-- A dense multi-dimensional array: dtype tag, shape, row-major data. -/
structure NDArray where
  dtype : DType
  shape : List Nat
  data : List Int
deriving DecidableEq

namespace NDArray

/-- Row-major strides of a shape: for `[a, b, c]` this is `[b*c, c, 1]`. -/
def strides : List Nat → List Nat
  | [] => []
  | _ :: rest => rest.prod :: strides rest

/-- Row-major multi-index of flat position `k` in `shape`. -/
def multiIndex : List Nat → Nat → List Nat
  | [], _ => []
  | _ :: rest, k => k / rest.prod :: multiIndex rest (k % rest.prod)

/-- Flat position of a multi-index in `shape` (row-major). -/
def flattenIdx (shape idx : List Nat) : Nat :=
  (List.zipWith (· * ·) idx (strides shape)).sum

/-- numpy `transpose(p)`: requires `p` to be a permutation of the axes. -/
def permute (p : List Nat) (x : NDArray) : Option NDArray :=
  if p.length = x.shape.length ∧ (List.range x.shape.length).all (fun i => p.contains i) then
    let ns := p.map (fun j => x.shape.getD j 0)
    some ⟨x.dtype, ns,
      (List.range ns.prod).map (fun k =>
        x.data.getD ((List.zipWith (fun vj pj => vj * (strides x.shape).getD pj 0)
          (multiIndex ns k) p).sum) 0)⟩
  else none

/-- numpy `transpose()` with no arguments: reverse all axes; total. -/
def transposeAll (x : NDArray) : NDArray :=
  ⟨x.dtype, x.shape.reverse,
    (List.range x.shape.reverse.prod).map (fun k =>
      x.data.getD (flattenIdx x.shape (multiIndex x.shape.reverse k).reverse) 0)⟩

/-- numpy `reshape(ns)`: succeeds when the element count is preserved. -/
def reshapeTo (ns : List Nat) (x : NDArray) : Option NDArray :=
  if ns.prod = x.shape.prod then some ⟨x.dtype, ns, x.data⟩ else none

/-- numpy `reshape(-1, h)`. -/
def reshapeNeg1 (h : Nat) (x : NDArray) : Option NDArray :=
  if 0 < h ∧ h ∣ x.shape.prod then some ⟨x.dtype, [x.shape.prod / h, h], x.data⟩
  else none

/-- numpy `reshape(-1)`: flatten; total. -/
def flatten1 (x : NDArray) : NDArray := ⟨x.dtype, [x.shape.prod], x.data⟩

/-- First slice along axis 0 (`x[0]`). -/
def sub0 (x : NDArray) : NDArray :=
  ⟨x.dtype, x.shape.tail, x.data.take x.shape.tail.prod⟩

/-- Second slice along axis 0 (`x[1]`). -/
def sub1 (x : NDArray) : NDArray :=
  ⟨x.dtype, x.shape.tail, (x.data.drop x.shape.tail.prod).take x.shape.tail.prod⟩

/-- Python tuple unpacking `a, b = x` of a numpy array: exactly two slices
along the leading axis, a `ValueError` otherwise. -/
def unstack2 (x : NDArray) : Option (NDArray × NDArray) :=
  match x.shape with
  | 2 :: _ => some (x.sub0, x.sub1)
  | _ => none

/-- numpy `astype`: retag the dtype. -/
def astype (d : DType) (x : NDArray) : NDArray := { x with dtype := d }

end NDArray

/-- torch `.type(dtype)`: retag the dtype. -/
def torchType (d : DType) (x : NDArray) : NDArray := { x with dtype := d }

/-- Model configuration fields consumed by the converter (external
collaborator `Gemma3TextConfig`). -/
structure Gemma3TextConfig where
  num_attention_heads : Nat
  num_key_value_heads : Nat
  head_dim : Nat
  hidden_size : Nat
deriving DecidableEq

/-- External collaborator `Gemma3VisionConfig`: only `hidden_size` is read. -/
structure Gemma3VisionConfig where
  hidden_size : Nat
deriving DecidableEq

structure Gemma3Config where
  text_config : Gemma3TextConfig
  vision_config : Option Gemma3VisionConfig
deriving DecidableEq

def _SIGLIP_BASE : Str := str "SigLiPFromPatches_0/siglip_encoder"

def _SIGLIP_EMBEDDING : Str := str "SigLiPFromPatches_0/siglip_encoder/embedding"

def _SIGLIP_TRANSFORMER_ENCODER_BLOCK : Str :=
  str "SigLiPFromPatches_0/siglip_encoder/Transformer/encoderblock_"

def _SIGLIP_TRANSFORMER_ENCODER_BLOCK_LEN : Nat := _SIGLIP_TRANSFORMER_ENCODER_BLOCK.length

def _SIGLIP_TRANSFORMER_ENCODER_NORM : Str :=
  str "SigLiPFromPatches_0/siglip_encoder/Transformer/encoder_norm"

def _TRANSFORMER_DECODER_BLOCK : Str := str "transformer/layer_"

def _TRANSFORMER_DECODER_BLOCK_LEN : Nat := _TRANSFORMER_DECODER_BLOCK.length

def _TRANSFORMER_EMBEDDER : Str := str "transformer/embedder"

def _TRANSFORMER_FINAL_NORM : Str := str "transformer/final_norm"

/-- Error taxonomy of the converter.  The source raises `ValueError`
everywhere; the constructors separate the unrecognized-path errors, the
unrecognized-member errors, the internal length-consistency error and the
numpy shape errors (failed unpack / transpose / reshape). -/
inductive ConvError where
  | badPath
  | badMember
  | lengthMismatch
  | shapeMismatch
deriving DecidableEq

def liftShape {α : Type} : Option α → Except ConvError α
  | some a => .ok a
  | none => .error .shapeMismatch

/-- The decoder-block suffix dispatch of `_convert_transformer_weights`
(lines 304-357), parameterized by the already-computed `base_path`. -/
def layerDispatch (config : Gemma3TextConfig) (path base_path : Str) (weights : NDArray) :
    Except ConvError (List Str × List NDArray) :=
  let attn_head_dim := config.num_attention_heads * config.head_dim
  let kv_head_dim := config.num_key_value_heads * config.head_dim
  if str "attn/attn_vec_einsum" <:+ path then do
    let w ← liftShape (weights.permute [2, 0, 1])
    let w ← liftShape (w.reshapeTo [config.hidden_size, attn_head_dim])
    .ok ([base_path ++ str ".self_attn.o_proj.weight"], [w])
  else if str "attn/_key_norm" <:+ path then
    .ok ([base_path ++ str ".self_attn.k_norm.weight"], [weights])
  else if str "attn/kv_einsum" <:+ path then do
    let kv ← liftShape weights.unstack2
    let k ← liftShape (kv.1.permute [0, 2, 1])
    let k ← liftShape (k.reshapeTo [kv_head_dim, config.hidden_size])
    let v ← liftShape (kv.2.permute [0, 2, 1])
    let v ← liftShape (v.reshapeTo [kv_head_dim, config.hidden_size])
    .ok ([base_path ++ str ".self_attn.k_proj.weight",
          base_path ++ str ".self_attn.v_proj.weight"], [k, v])
  else if str "attn/q_einsum" <:+ path then do
    let w ← liftShape (weights.permute [0, 2, 1])
    let w ← liftShape (w.reshapeTo [attn_head_dim, config.hidden_size])
    .ok ([base_path ++ str ".self_attn.q_proj.weight"], [w])
  else if str "attn/_query_norm" <:+ path then
    .ok ([base_path ++ str ".self_attn.q_norm.weight"], [weights])
  else if str "mlp/gating_einsum" <:+ path then do
    let gu ← liftShape weights.unstack2
    .ok ([base_path ++ str ".mlp.gate_proj.weight",
          base_path ++ str ".mlp.up_proj.weight"], [gu.1, gu.2])
  else if str "mlp/linear" <:+ path then
    .ok ([base_path ++ str ".mlp.down_proj.weight"], [weights.transposeAll])
  else if str "post_attention_norm" <:+ path then
    .ok ([base_path ++ str ".post_attention_layernorm.weight"], [weights])
  else if str "post_ffw_norm" <:+ path then
    .ok ([base_path ++ str ".post_feedforward_layernorm.weight"], [weights])
  else if str "pre_attention_norm" <:+ path then
    .ok ([base_path ++ str ".input_layernorm.weight"], [weights])
  else if str "pre_ffw_norm" <:+ path then
    .ok ([base_path ++ str ".pre_feedforward_layernorm.weight"], [weights])
  else .error .badPath

/-- The branch body of `_convert_transformer_weights` computing
`converted_paths` and `converted_weights` (lines 273-359). -/
def textRule (config : Gemma3TextConfig) (path prop : Str) (weights : NDArray) :
    Except ConvError (List Str × List NDArray) :=
  if path = _TRANSFORMER_EMBEDDER then
    if prop = str "input_embedding" then
      .ok ([str "language_model.model.embed_tokens.weight",
            str "language_model.lm_head.weight"], [weights, weights])
    else if prop = str "mm_input_embedding_extra" then .ok ([], [])
    else if prop = str "mm_output_embedding" then .ok ([], [])
    else .error .badMember
  else if (_TRANSFORMER_EMBEDDER ++ str "/mm") <+: path then
    if str "/mm_input_projection" <:+ path then .ok ([], [])
    else if str "/mm_soft_embedding_norm" <:+ path then .ok ([], [])
    else .error .badPath
  else if path = _TRANSFORMER_FINAL_NORM then
    .ok ([str "language_model.model.norm.weight"], [weights])
  else if _TRANSFORMER_DECODER_BLOCK <+: path then
    let decoder_block_path := path.drop _TRANSFORMER_DECODER_BLOCK_LEN
    let idx := pyFind decoder_block_path '/'
    let layer_idx := pySliceTo decoder_block_path idx
    layerDispatch config path (str "language_model.model.layers." ++ layer_idx) weights
  else .error .badPath

/-- `_convert_transformer_weights` (lines 261-367): run the branch body,
check the two produced lists have equal length, and zip them. -/
def _convert_transformer_weights (config : Gemma3TextConfig) (path prop : Str)
    (weights : NDArray) : Except ConvError (List (Str × NDArray)) :=
  match textRule config path prop weights with
  | .error e => .error e
  | .ok (ps, ws) =>
    if ps.length = ws.length then .ok (ps.zip ws) else .error .lengthMismatch

/-- The encoder-block attention sub-dispatch of `_convert_siglip_weight`
(lines 216-239), parameterized by the already-computed pieces. -/
def siglipAttnDispatch (config : Gemma3VisionConfig) (_path : Str)
    (encoder_block_path normalized_path : Str) (prop : Str) (weights : NDArray) :
    Except ConvError (Str × NDArray) := do
  let normalized_path ←
    if str "/key" <:+ encoder_block_path then
      .ok (normalized_path ++ str ".self_attn.k_proj")
    else if str "/out" <:+ encoder_block_path then
      .ok (normalized_path ++ str ".self_attn.out_proj")
    else if str "/query" <:+ encoder_block_path then
      .ok (normalized_path ++ str ".self_attn.q_proj")
    else if str "/value" <:+ encoder_block_path then
      .ok (normalized_path ++ str ".self_attn.v_proj")
    else .error .badPath
  if prop = str "bias" then do
    let w ← liftShape (weights.reshapeNeg1 config.hidden_size)
    .ok (normalized_path ++ str ".bias", w.flatten1)
  else if prop = str "kernel" then do
    let w ← liftShape (weights.reshapeNeg1 config.hidden_size)
    .ok (normalized_path ++ str ".weight", w.transposeAll)
  else .error .badMember

/-- The encoder-block branch of `_convert_siglip_weight` (lines 186-243),
parameterized by the already-computed `encoder_block_path` (after the layer
index was split off) and `normalized_path`. -/
def siglipBlockDispatch (config : Gemma3VisionConfig) (path ebp np : Str) (prop : Str)
    (w : NDArray) : Except ConvError (Str × NDArray) :=
  if str "/LayerNorm" <+: ebp then
    let np := np ++ (if str "_0" <:+ path then str ".layer_norm1" else str ".layer_norm2")
    if prop = str "scale" then .ok (np ++ str ".weight", w.transposeAll)
    else if prop = str "bias" then .ok (np ++ str ".bias", w)
    else .error .badMember
  else if str "/MlpBlock_0" <+: ebp then
    let np := np ++ (if str "/Dense_0" <:+: ebp then str ".mlp.fc1" else str ".mlp.fc2")
    if prop = str "kernel" then .ok (np ++ str ".weight", w.transposeAll)
    else if prop = str "bias" then .ok (np ++ str ".bias", w)
    else .error .badMember
  else if str "/MultiHeadDotProductAttention_0" <+: ebp then
    siglipAttnDispatch config path ebp np prop w
  else .error .badPath

/-- `_convert_siglip_weight` (lines 152-258). -/
def _convert_siglip_weight (config : Gemma3VisionConfig) (path prop : Str)
    (weights : NDArray) : Except ConvError (Str × NDArray) :=
  if path = _SIGLIP_BASE then do
    let w ← liftShape (weights.reshapeNeg1 config.hidden_size)
    .ok (str "vision_model.vision_model.embeddings.position_embedding.weight", w)
  else if path = _SIGLIP_EMBEDDING then
    if prop = str "kernel" then do
      let w ← liftShape (weights.permute [3, 2, 0, 1])
      .ok (str "vision_model.vision_model.embeddings.patch_embedding.weight", w)
    else if prop = str "bias" then
      .ok (str "vision_model.vision_model.embeddings.patch_embedding.bias", weights)
    else .error .badMember
  else if _SIGLIP_TRANSFORMER_ENCODER_BLOCK <+: path then
    let encoder_block_path := path.drop _SIGLIP_TRANSFORMER_ENCODER_BLOCK_LEN
    let i := pyFind encoder_block_path '/'
    let layer_idx := pySliceTo encoder_block_path i
    siglipBlockDispatch config path (pySliceFrom encoder_block_path i)
      (str "vision_model.vision_model.encoder.layers." ++ layer_idx) prop weights
  else if path = _SIGLIP_TRANSFORMER_ENCODER_NORM then
    if prop = str "scale" then
      .ok (str "vision_model.vision_model.post_layernorm.weight", weights.transposeAll)
    else if prop = str "bias" then
      .ok (str "vision_model.vision_model.post_layernorm.bias", weights)
    else .error .badMember
  else .error .badPath

/-- A leaf of the source parameter tree: a `(path, leaf-property, array)`
triple as produced by `tree.flatten_with_path`. -/
structure Leaf where
  path : Str
  prop : Str
  value : NDArray
deriving DecidableEq

/-- `update_tree` (lines 391-399): upcast through float32, then cast to the
target dtype.  Only the dtype tag is tracked. -/
def update_tree_value (target_dtype : DType) (weights : NDArray) : NDArray :=
  torchType target_dtype (weights.astype .float32)

/-- Python dict assignment `d[k] = v`: replace in place or append. -/
def upsert : List (Str × NDArray) → Str → NDArray → List (Str × NDArray)
  | [], k, v => [(k, v)]
  | (k', v') :: rest, k, v =>
    if k' = k then (k, v) :: rest else (k', v') :: upsert rest k v

/-- The per-leaf body of the loop in `convert` (lines 401-417), returning
the `(destination key, cast tensor)` pairs inserted for this leaf. -/
def convertLeaf (config : Gemma3Config) (target_dtype : DType) (lf : Leaf) :
    Except ConvError (List (Str × NDArray)) :=
  if str "SigLiPFromPatches_" <+: lf.path then
    match config.vision_config with
    | none => .ok []
    | some vc => do
      let pw ← _convert_siglip_weight vc lf.path lf.prop lf.value
      .ok [(pw.1, update_tree_value target_dtype pw.2)]
  else do
    let pairs ← _convert_transformer_weights config.text_config lf.path lf.prop lf.value
    .ok (pairs.map (fun pw =>
      ((if config.vision_config.isNone then pw.1.drop (str "language_model.").length
        else pw.1),
       update_tree_value target_dtype pw.2)))

/-- The full loop of `convert`: all pairs inserted into `hf_tree`, in
insertion order.  Errors abort the run at the first offending leaf. -/
def convertEmits (config : Gemma3Config) (target_dtype : DType) :
    List Leaf → Except ConvError (List (Str × NDArray))
  | [] => .ok []
  | lf :: rest => do
    let head ← convertLeaf config target_dtype lf
    let tail ← convertEmits config target_dtype rest
    .ok (head ++ tail)

/-- `convert` (lines 381-419): the final `hf_tree` dict, built by
insert-with-overwrite from the emitted pairs. -/
def convert (config : Gemma3Config) (target_dtype : DType) (leaves : List Leaf) :
    Except ConvError (List (Str × NDArray)) :=
  match convertEmits config target_dtype leaves with
  | .error e => .error e
  | .ok pairs => .ok (pairs.foldl (fun m kv => upsert m kv.1 kv.2) [])

/-! ### String-reasoning helpers -/

theorem not_suffix_of_long {l s c : Str} (hs : s <:+ l) (hlen : s.length ≤ c.length)
    (hns : ¬ s <:+ c) : ¬ c <:+ l :=
  fun hc => hns (List.suffix_of_suffix_length_le hs hc hlen)

theorem not_suffix_of_short {l s c : Str} (hs : s <:+ l) (hlen : c.length ≤ s.length)
    (hcs : ¬ c <:+ s) : ¬ c <:+ l :=
  fun hc => hcs (List.suffix_of_suffix_length_le hc hs hlen)

theorem suffix_of_suffix_suffix {l s c : Str} (hs : s <:+ l) (hlen : c.length ≤ s.length)
    (hc : c <:+ l) : c <:+ s :=
  List.suffix_of_suffix_length_le hc hs hlen

theorem not_prefix_of_long {l p c : Str} (hp : p <+: l) (hlen : p.length ≤ c.length)
    (hnp : ¬ p <+: c) : ¬ c <+: l :=
  fun hc => hnp (List.prefix_of_prefix_length_le hp hc hlen)

theorem not_prefix_of_short {l p c : Str} (hp : p <+: l) (hlen : c.length ≤ p.length)
    (hcp : ¬ c <+: p) : ¬ c <+: l :=
  fun hc => hcp (List.prefix_of_prefix_length_le hc hp hlen)

theorem append_ne_of_not_prefix {p c : Str} (h : ¬ p <+: c) (x : Str) : p ++ x ≠ c :=
  fun he => h (he ▸ List.prefix_append p x)

theorem head_eq_of_eq_append {c : Char} {x y : Str} (h : c :: x = y) : y.head? = some c := by
  rw [← h]; rfl

/-- Splitting an equality at a digits / non-digit boundary. -/
theorem digit_append_inj {ds₁ : Str} :
    ∀ {ds₂ t₁ t₂ : Str}, ds₁ ++ t₁ = ds₂ ++ t₂ →
      (∀ c ∈ ds₁, c.isDigit) → (∀ c ∈ ds₂, c.isDigit) →
      (∀ c, t₁.head? = some c → c.isDigit = false) →
      (∀ c, t₂.head? = some c → c.isDigit = false) →
      ds₁ = ds₂ ∧ t₁ = t₂ := by
  induction ds₁ with
  | nil =>
    intro ds₂ t₁ t₂ h _ hd₂ ht₁ _
    cases ds₂ with
    | nil => exact ⟨rfl, h⟩
    | cons c ds₂ =>
      exfalso
      simp only [List.nil_append, List.cons_append] at h
      have hc : t₁.head? = some c := by rw [h]; rfl
      have := ht₁ c hc
      have := hd₂ c (by simp)
      simp_all
  | cons a ds₁ ih =>
    intro ds₂ t₁ t₂ h hd₁ hd₂ ht₁ ht₂
    cases ds₂ with
    | nil =>
      exfalso
      simp only [List.cons_append, List.nil_append] at h
      have hc : t₂.head? = some a := by rw [← h]; rfl
      have := ht₂ a hc
      have := hd₁ a (by simp)
      simp_all
    | cons b ds₂ =>
      simp only [List.cons_append, List.cons.injEq] at h
      obtain ⟨rfl, h⟩ := h
      obtain ⟨h1, h2⟩ := ih h (fun c hc => hd₁ c (by simp [hc]))
        (fun c hc => hd₂ c (by simp [hc])) ht₁ ht₂
      exact ⟨by rw [h1], h2⟩

theorem pyFind_append_cons {c : Char} {r : Str} : ∀ {ds : Str}, (∀ x ∈ ds, x ≠ c) →
    pyFind (ds ++ c :: r) c = (ds.length : Int) := by
  intro ds
  induction ds with
  | nil => intro _; simp [pyFind]
  | cons a ds ih =>
    intro h
    have ha : a ≠ c := h a (by simp)
    have hr := ih (fun x hx => h x (by simp [hx]))
    simp only [List.cons_append, pyFind, if_neg ha, List.append_eq, hr]
    have hnn : ¬ ((ds.length : Int) < 0) := by omega
    rw [if_neg hnn]
    simp only [List.length_cons, Nat.cast_add, Nat.cast_one]

theorem pySliceTo_append_cons {ds : Str} {c : Char} {r : Str} (h : ∀ x ∈ ds, x ≠ c) :
    pySliceTo (ds ++ c :: r) (pyFind (ds ++ c :: r) c) = ds := by
  rw [pyFind_append_cons h]
  unfold pySliceTo pyIdx
  have h0 : (0 : Int) ≤ (ds.length : Int) := by omega
  rw [if_pos h0]
  have h1 : (ds.length : Int).toNat = ds.length := by omega
  rw [h1]
  have h2 : min (ds ++ c :: r).length ds.length = ds.length := by
    simp [List.length_append]
  rw [h2, List.take_left]

theorem pySliceFrom_append_cons {ds : Str} {c : Char} {r : Str} (h : ∀ x ∈ ds, x ≠ c) :
    pySliceFrom (ds ++ c :: r) (pyFind (ds ++ c :: r) c) = c :: r := by
  rw [pyFind_append_cons h]
  unfold pySliceFrom pyIdx
  have h0 : (0 : Int) ≤ (ds.length : Int) := by omega
  rw [if_pos h0]
  have h1 : (ds.length : Int).toNat = ds.length := by omega
  rw [h1]
  have h2 : min (ds ++ c :: r).length ds.length = ds.length := by
    simp [List.length_append]
  rw [h2, List.drop_left]

/-! ### Reduction lemmas for the text-branch dispatch -/

/-- The `layer_idx` extracted by `_convert_transformer_weights` for a
decoder-block path. -/
def layerIdxOf (path : Str) : Str :=
  pySliceTo (path.drop _TRANSFORMER_DECODER_BLOCK_LEN)
    (pyFind (path.drop _TRANSFORMER_DECODER_BLOCK_LEN) '/')

theorem textRule_eq_layerDispatch (config : Gemma3TextConfig) {path : Str}
    (prop : Str) (w : NDArray) (hpre : _TRANSFORMER_DECODER_BLOCK <+: path) :
    textRule config path prop w =
      layerDispatch config path (str "language_model.model.layers." ++ layerIdxOf path) w := by
  have h1 : ¬ path = _TRANSFORMER_EMBEDDER := fun he => absurd (he ▸ hpre) (by decide)
  have h2 : ¬ (_TRANSFORMER_EMBEDDER ++ str "/mm") <+: path :=
    not_prefix_of_long hpre (by decide) (by decide)
  have h3 : ¬ path = _TRANSFORMER_FINAL_NORM := fun he => absurd (he ▸ hpre) (by decide)
  simp only [textRule, if_neg h1, if_neg h2, if_neg h3, if_pos hpre]
  rfl

theorem layerDispatch_eq_attnVec (config : Gemma3TextConfig) {path : Str} (bp : Str)
    (w : NDArray) (h : str "attn/attn_vec_einsum" <:+ path) :
    layerDispatch config path bp w = (do
      let a ← liftShape (w.permute [2, 0, 1])
      let a ← liftShape
        (a.reshapeTo [config.hidden_size, config.num_attention_heads * config.head_dim])
      Except.ok ([bp ++ str ".self_attn.o_proj.weight"], [a])) := by
  simp only [layerDispatch, if_pos h]

theorem layerDispatch_eq_keyNorm (config : Gemma3TextConfig) {path : Str} (bp : Str)
    (w : NDArray) (h : str "attn/_key_norm" <:+ path) :
    layerDispatch config path bp w =
      .ok ([bp ++ str ".self_attn.k_norm.weight"], [w]) := by
  have h1 : ¬ str "attn/attn_vec_einsum" <:+ path := not_suffix_of_long h (by decide) (by decide)
  simp only [layerDispatch, if_neg h1, if_pos h]

theorem layerDispatch_eq_kv (config : Gemma3TextConfig) {path : Str} (bp : Str)
    (w : NDArray) (h : str "attn/kv_einsum" <:+ path) :
    layerDispatch config path bp w = (do
      let kv ← liftShape w.unstack2
      let k ← liftShape (kv.1.permute [0, 2, 1])
      let k ← liftShape
        (k.reshapeTo [config.num_key_value_heads * config.head_dim, config.hidden_size])
      let v ← liftShape (kv.2.permute [0, 2, 1])
      let v ← liftShape
        (v.reshapeTo [config.num_key_value_heads * config.head_dim, config.hidden_size])
      Except.ok ([bp ++ str ".self_attn.k_proj.weight",
        bp ++ str ".self_attn.v_proj.weight"], [k, v])) := by
  have h1 : ¬ str "attn/attn_vec_einsum" <:+ path := not_suffix_of_long h (by decide) (by decide)
  have h2 : ¬ str "attn/_key_norm" <:+ path := not_suffix_of_short h (by decide) (by decide)
  simp only [layerDispatch, if_neg h1, if_neg h2, if_pos h]

theorem layerDispatch_eq_q (config : Gemma3TextConfig) {path : Str} (bp : Str)
    (w : NDArray) (h : str "attn/q_einsum" <:+ path) :
    layerDispatch config path bp w = (do
      let a ← liftShape (w.permute [0, 2, 1])
      let a ← liftShape
        (a.reshapeTo [config.num_attention_heads * config.head_dim, config.hidden_size])
      Except.ok ([bp ++ str ".self_attn.q_proj.weight"], [a])) := by
  have h1 : ¬ str "attn/attn_vec_einsum" <:+ path := not_suffix_of_long h (by decide) (by decide)
  have h2 : ¬ str "attn/_key_norm" <:+ path := not_suffix_of_long h (by decide) (by decide)
  have h3 : ¬ str "attn/kv_einsum" <:+ path := not_suffix_of_long h (by decide) (by decide)
  simp only [layerDispatch, if_neg h1, if_neg h2, if_neg h3, if_pos h]

theorem layerDispatch_eq_queryNorm (config : Gemma3TextConfig) {path : Str} (bp : Str)
    (w : NDArray) (h : str "attn/_query_norm" <:+ path) :
    layerDispatch config path bp w =
      .ok ([bp ++ str ".self_attn.q_norm.weight"], [w]) := by
  have h1 : ¬ str "attn/attn_vec_einsum" <:+ path := not_suffix_of_long h (by decide) (by decide)
  have h2 : ¬ str "attn/_key_norm" <:+ path := not_suffix_of_short h (by decide) (by decide)
  have h3 : ¬ str "attn/kv_einsum" <:+ path := not_suffix_of_short h (by decide) (by decide)
  have h4 : ¬ str "attn/q_einsum" <:+ path := not_suffix_of_short h (by decide) (by decide)
  simp only [layerDispatch, if_neg h1, if_neg h2, if_neg h3, if_neg h4, if_pos h]

theorem layerDispatch_eq_gating (config : Gemma3TextConfig) {path : Str} (bp : Str)
    (w : NDArray) (h : str "mlp/gating_einsum" <:+ path) :
    layerDispatch config path bp w = (do
      let gu ← liftShape w.unstack2
      Except.ok ([bp ++ str ".mlp.gate_proj.weight",
        bp ++ str ".mlp.up_proj.weight"], [gu.1, gu.2])) := by
  have h1 : ¬ str "attn/attn_vec_einsum" <:+ path := not_suffix_of_long h (by decide) (by decide)
  have h2 : ¬ str "attn/_key_norm" <:+ path := not_suffix_of_short h (by decide) (by decide)
  have h3 : ¬ str "attn/kv_einsum" <:+ path := not_suffix_of_short h (by decide) (by decide)
  have h4 : ¬ str "attn/q_einsum" <:+ path := not_suffix_of_short h (by decide) (by decide)
  have h5 : ¬ str "attn/_query_norm" <:+ path := not_suffix_of_short h (by decide) (by decide)
  simp only [layerDispatch, if_neg h1, if_neg h2, if_neg h3, if_neg h4, if_neg h5, if_pos h]

theorem layerDispatch_eq_linear (config : Gemma3TextConfig) {path : Str} (bp : Str)
    (w : NDArray) (h : str "mlp/linear" <:+ path) :
    layerDispatch config path bp w =
      .ok ([bp ++ str ".mlp.down_proj.weight"], [w.transposeAll]) := by
  have h1 : ¬ str "attn/attn_vec_einsum" <:+ path := not_suffix_of_long h (by decide) (by decide)
  have h2 : ¬ str "attn/_key_norm" <:+ path := not_suffix_of_long h (by decide) (by decide)
  have h3 : ¬ str "attn/kv_einsum" <:+ path := not_suffix_of_long h (by decide) (by decide)
  have h4 : ¬ str "attn/q_einsum" <:+ path := not_suffix_of_long h (by decide) (by decide)
  have h5 : ¬ str "attn/_query_norm" <:+ path := not_suffix_of_long h (by decide) (by decide)
  have h6 : ¬ str "mlp/gating_einsum" <:+ path := not_suffix_of_long h (by decide) (by decide)
  simp only [layerDispatch, if_neg h1, if_neg h2, if_neg h3, if_neg h4, if_neg h5, if_neg h6,
    if_pos h]

theorem layerDispatch_eq_postAttn (config : Gemma3TextConfig) {path : Str} (bp : Str)
    (w : NDArray) (h : str "post_attention_norm" <:+ path) :
    layerDispatch config path bp w =
      .ok ([bp ++ str ".post_attention_layernorm.weight"], [w]) := by
  have h1 : ¬ str "attn/attn_vec_einsum" <:+ path := not_suffix_of_long h (by decide) (by decide)
  have h2 : ¬ str "attn/_key_norm" <:+ path := not_suffix_of_short h (by decide) (by decide)
  have h3 : ¬ str "attn/kv_einsum" <:+ path := not_suffix_of_short h (by decide) (by decide)
  have h4 : ¬ str "attn/q_einsum" <:+ path := not_suffix_of_short h (by decide) (by decide)
  have h5 : ¬ str "attn/_query_norm" <:+ path := not_suffix_of_short h (by decide) (by decide)
  have h6 : ¬ str "mlp/gating_einsum" <:+ path := not_suffix_of_short h (by decide) (by decide)
  have h7 : ¬ str "mlp/linear" <:+ path := not_suffix_of_short h (by decide) (by decide)
  simp only [layerDispatch, if_neg h1, if_neg h2, if_neg h3, if_neg h4, if_neg h5, if_neg h6,
    if_neg h7, if_pos h]

theorem layerDispatch_eq_postFfw (config : Gemma3TextConfig) {path : Str} (bp : Str)
    (w : NDArray) (h : str "post_ffw_norm" <:+ path) :
    layerDispatch config path bp w =
      .ok ([bp ++ str ".post_feedforward_layernorm.weight"], [w]) := by
  have h1 : ¬ str "attn/attn_vec_einsum" <:+ path := not_suffix_of_long h (by decide) (by decide)
  have h2 : ¬ str "attn/_key_norm" <:+ path := not_suffix_of_long h (by decide) (by decide)
  have h3 : ¬ str "attn/kv_einsum" <:+ path := not_suffix_of_long h (by decide) (by decide)
  have h4 : ¬ str "attn/q_einsum" <:+ path := not_suffix_of_long h (by decide) (by decide)
  have h5 : ¬ str "attn/_query_norm" <:+ path := not_suffix_of_long h (by decide) (by decide)
  have h6 : ¬ str "mlp/gating_einsum" <:+ path := not_suffix_of_long h (by decide) (by decide)
  have h7 : ¬ str "mlp/linear" <:+ path := not_suffix_of_short h (by decide) (by decide)
  have h8 : ¬ str "post_attention_norm" <:+ path := not_suffix_of_long h (by decide) (by decide)
  simp only [layerDispatch, if_neg h1, if_neg h2, if_neg h3, if_neg h4, if_neg h5, if_neg h6,
    if_neg h7, if_neg h8, if_pos h]

theorem layerDispatch_eq_preAttn (config : Gemma3TextConfig) {path : Str} (bp : Str)
    (w : NDArray) (h : str "pre_attention_norm" <:+ path) :
    layerDispatch config path bp w =
      .ok ([bp ++ str ".input_layernorm.weight"], [w]) := by
  have h1 : ¬ str "attn/attn_vec_einsum" <:+ path := not_suffix_of_long h (by decide) (by decide)
  have h2 : ¬ str "attn/_key_norm" <:+ path := not_suffix_of_short h (by decide) (by decide)
  have h3 : ¬ str "attn/kv_einsum" <:+ path := not_suffix_of_short h (by decide) (by decide)
  have h4 : ¬ str "attn/q_einsum" <:+ path := not_suffix_of_short h (by decide) (by decide)
  have h5 : ¬ str "attn/_query_norm" <:+ path := not_suffix_of_short h (by decide) (by decide)
  have h6 : ¬ str "mlp/gating_einsum" <:+ path := not_suffix_of_short h (by decide) (by decide)
  have h7 : ¬ str "mlp/linear" <:+ path := not_suffix_of_short h (by decide) (by decide)
  have h8 : ¬ str "post_attention_norm" <:+ path := not_suffix_of_long h (by decide) (by decide)
  have h9 : ¬ str "post_ffw_norm" <:+ path := not_suffix_of_short h (by decide) (by decide)
  simp only [layerDispatch, if_neg h1, if_neg h2, if_neg h3, if_neg h4, if_neg h5, if_neg h6,
    if_neg h7, if_neg h8, if_neg h9, if_pos h]

theorem layerDispatch_eq_preFfw (config : Gemma3TextConfig) {path : Str} (bp : Str)
    (w : NDArray) (h : str "pre_ffw_norm" <:+ path) :
    layerDispatch config path bp w =
      .ok ([bp ++ str ".pre_feedforward_layernorm.weight"], [w]) := by
  have h1 : ¬ str "attn/attn_vec_einsum" <:+ path := not_suffix_of_long h (by decide) (by decide)
  have h2 : ¬ str "attn/_key_norm" <:+ path := not_suffix_of_long h (by decide) (by decide)
  have h3 : ¬ str "attn/kv_einsum" <:+ path := not_suffix_of_long h (by decide) (by decide)
  have h4 : ¬ str "attn/q_einsum" <:+ path := not_suffix_of_long h (by decide) (by decide)
  have h5 : ¬ str "attn/_query_norm" <:+ path := not_suffix_of_long h (by decide) (by decide)
  have h6 : ¬ str "mlp/gating_einsum" <:+ path := not_suffix_of_long h (by decide) (by decide)
  have h7 : ¬ str "mlp/linear" <:+ path := not_suffix_of_short h (by decide) (by decide)
  have h8 : ¬ str "post_attention_norm" <:+ path := not_suffix_of_long h (by decide) (by decide)
  have h9 : ¬ str "post_ffw_norm" <:+ path := not_suffix_of_long h (by decide) (by decide)
  have h10 : ¬ str "pre_attention_norm" <:+ path := not_suffix_of_long h (by decide) (by decide)
  simp only [layerDispatch, if_neg h1, if_neg h2, if_neg h3, if_neg h4, if_neg h5, if_neg h6,
    if_neg h7, if_neg h8, if_neg h9, if_neg h10, if_pos h]

/-! ### Success conditions of the array operations -/

theorem except_bind_ok {ε α β : Type} (a : α) (f : α → Except ε β) :
    (Except.ok a >>= f : Except ε β) = f a := rfl

theorem permute_some_of_valid (x : NDArray) (p : List Nat) (hlen : p.length = x.shape.length)
    (hall : ((List.range x.shape.length).all fun i => p.contains i) = true) :
    ∃ y, x.permute p = some y ∧ y.shape = p.map (fun j => x.shape.getD j 0) ∧
      y.dtype = x.dtype ∧ y.data = (List.range (p.map (fun j => x.shape.getD j 0)).prod).map
        (fun k => x.data.getD ((List.zipWith (fun vj pj => vj * (NDArray.strides x.shape).getD pj 0)
          (NDArray.multiIndex (p.map (fun j => x.shape.getD j 0)) k) p).sum) 0) := by
  unfold NDArray.permute
  rw [if_pos ⟨hlen, hall⟩]
  exact ⟨_, rfl, rfl, rfl, rfl⟩

theorem reshapeTo_some_of_prod (x : NDArray) (ns : List Nat) (h : ns.prod = x.shape.prod) :
    x.reshapeTo ns = some ⟨x.dtype, ns, x.data⟩ := by
  unfold NDArray.reshapeTo
  rw [if_pos h]

theorem unstack2_of_shape {x : NDArray} {rest : List Nat} (h : x.shape = 2 :: rest) :
    x.unstack2 = some (x.sub0, x.sub1) := by
  unfold NDArray.unstack2
  rw [h]

/-! ### Claim theorems: functional correctness of individual rules -/

/-- Claim C4: for the embedder source path with leaf-property
`input_embedding`, `_convert_transformer_weights` emits exactly two pairs,
the token-embedding key and the lm_head key, and both emitted arrays are
the untransformed source array. -/
theorem claim_C4_shared_embedding (config : Gemma3TextConfig) (w : NDArray) :
    _convert_transformer_weights config (str "transformer/embedder")
      (str "input_embedding") w =
      .ok [(str "language_model.model.embed_tokens.weight", w),
           (str "language_model.lm_head.weight", w)] := rfl

/-- Claim C3: for every decoder-block source path ending in
`mlp/gating_einsum` with a stacked array of shape `(2, H, I)`,
`_convert_transformer_weights` emits exactly two pairs, the gate and up
projection weights, whose arrays are the two slices along axis 0 (each of
shape `(H, I)`) with no further transform. -/
theorem claim_C3_gating_split (config : Gemma3TextConfig) {path : Str} (prop : Str)
    (w : NDArray) (H I : Nat)
    (hpre : _TRANSFORMER_DECODER_BLOCK <+: path)
    (hsfx : str "mlp/gating_einsum" <:+ path)
    (hsh : w.shape = [2, H, I]) :
    _convert_transformer_weights config path prop w =
      .ok [(str "language_model.model.layers." ++ layerIdxOf path ++
              str ".mlp.gate_proj.weight", w.sub0),
           (str "language_model.model.layers." ++ layerIdxOf path ++
              str ".mlp.up_proj.weight", w.sub1)] ∧
      w.sub0.shape = [H, I] ∧ w.sub1.shape = [H, I] := by
  have hu : w.unstack2 = some (w.sub0, w.sub1) := unstack2_of_shape hsh
  constructor
  · unfold _convert_transformer_weights
    rw [textRule_eq_layerDispatch config prop w hpre, layerDispatch_eq_gating config _ w hsfx]
    rw [List.append_assoc, List.append_assoc]
    simp only [hu, liftShape, except_bind_ok]
    rfl
  · constructor
    · simp [NDArray.sub0, hsh]
    · simp [NDArray.sub1, hsh]

/-- Claim C2: for every decoder-block source path ending in
`attn/kv_einsum` whose array stacks two sub-tensors of shape
`(num_key_value_heads, hidden_size, head_dim)` along the leading axis,
`_convert_transformer_weights` emits exactly two pairs, the k_proj and
v_proj weights, each equal to the corresponding slice permuted by axes
`(0, 2, 1)` and reshaped to `(num_key_value_heads * head_dim, hidden_size)`. -/
theorem claim_C2_kv_split (config : Gemma3TextConfig) {path : Str} (prop : Str)
    (w : NDArray)
    (hpre : _TRANSFORMER_DECODER_BLOCK <+: path)
    (hsfx : str "attn/kv_einsum" <:+ path)
    (hsh : w.shape = [2, config.num_key_value_heads, config.hidden_size, config.head_dim]) :
    ∃ tk tv,
      (w.sub0.permute [0, 2, 1]).bind
        (NDArray.reshapeTo
          [config.num_key_value_heads * config.head_dim, config.hidden_size]) = some tk ∧
      (w.sub1.permute [0, 2, 1]).bind
        (NDArray.reshapeTo
          [config.num_key_value_heads * config.head_dim, config.hidden_size]) = some tv ∧
      _convert_transformer_weights config path prop w =
        .ok [(str "language_model.model.layers." ++ layerIdxOf path ++
                str ".self_attn.k_proj.weight", tk),
             (str "language_model.model.layers." ++ layerIdxOf path ++
                str ".self_attn.v_proj.weight", tv)] := by
  have hu : w.unstack2 = some (w.sub0, w.sub1) := unstack2_of_shape hsh
  have hs0 : w.sub0.shape =
      [config.num_key_value_heads, config.hidden_size, config.head_dim] := by
    simp [NDArray.sub0, hsh]
  have hs1 : w.sub1.shape =
      [config.num_key_value_heads, config.hidden_size, config.head_dim] := by
    simp [NDArray.sub1, hsh]
  obtain ⟨tk0, hp0, hshp0, hdt0, _⟩ := permute_some_of_valid w.sub0 [0, 2, 1]
    (by rw [hs0]; rfl) (by rw [hs0]; rfl)
  obtain ⟨tv0, hp1, hshp1, hdt1, _⟩ := permute_some_of_valid w.sub1 [0, 2, 1]
    (by rw [hs1]; rfl) (by rw [hs1]; rfl)
  have hshp0' : tk0.shape =
      [config.num_key_value_heads, config.head_dim, config.hidden_size] := by
    rw [hshp0, hs0]; rfl
  have hshp1' : tv0.shape =
      [config.num_key_value_heads, config.head_dim, config.hidden_size] := by
    rw [hshp1, hs1]; rfl
  have hr0 := reshapeTo_some_of_prod tk0
    [config.num_key_value_heads * config.head_dim, config.hidden_size]
    (by rw [hshp0']; simp [List.prod_cons]; ring)
  have hr1 := reshapeTo_some_of_prod tv0
    [config.num_key_value_heads * config.head_dim, config.hidden_size]
    (by rw [hshp1']; simp [List.prod_cons]; ring)
  refine ⟨⟨tk0.dtype, [config.num_key_value_heads * config.head_dim, config.hidden_size],
      tk0.data⟩,
    ⟨tv0.dtype, [config.num_key_value_heads * config.head_dim, config.hidden_size],
      tv0.data⟩, ?_, ?_, ?_⟩
  · rw [hp0, Option.some_bind, hr0]
  · rw [hp1, Option.some_bind, hr1]
  · unfold _convert_transformer_weights
    rw [textRule_eq_layerDispatch config prop w hpre, layerDispatch_eq_kv config _ w hsfx]
    rw [List.append_assoc, List.append_assoc]
    simp only [hu, liftShape, except_bind_ok, hp0, hp1, hr0, hr1]
    rfl

/-- Concrete witness for claim C2: a `(2, 1, 2, 1)` stacked kv tensor. -/
theorem claim_C2_kv_split_witness :
    ∃ tk tv,
      ((⟨.float32, [2, 1, 2, 1], [1, 2, 3, 4]⟩ : NDArray).sub0.permute [0, 2, 1]).bind
        (NDArray.reshapeTo [1 * 1, 2]) = some tk ∧
      ((⟨.float32, [2, 1, 2, 1], [1, 2, 3, 4]⟩ : NDArray).sub1.permute [0, 2, 1]).bind
        (NDArray.reshapeTo [1 * 1, 2]) = some tv ∧
      _convert_transformer_weights ⟨1, 1, 1, 2⟩
        (str "transformer/layer_0/attn/kv_einsum") (str "w")
        ⟨.float32, [2, 1, 2, 1], [1, 2, 3, 4]⟩ =
        .ok [(str "language_model.model.layers." ++
                layerIdxOf (str "transformer/layer_0/attn/kv_einsum") ++
                str ".self_attn.k_proj.weight", tk),
             (str "language_model.model.layers." ++
                layerIdxOf (str "transformer/layer_0/attn/kv_einsum") ++
                str ".self_attn.v_proj.weight", tv)] :=
  claim_C2_kv_split ⟨1, 1, 1, 2⟩ (str "w") ⟨.float32, [2, 1, 2, 1], [1, 2, 3, 4]⟩
    (by decide) (by decide) rfl

/-- Concrete witness for claim C3: a `(2, 2, 3)` stacked gating tensor. -/
theorem claim_C3_gating_split_witness :
    _convert_transformer_weights ⟨1, 1, 1, 2⟩
      (str "transformer/layer_12/mlp/gating_einsum") (str "w")
      (⟨.float32, [2, 2, 3], [1, 2, 3, 4, 5, 6, 7, 8, 9, 10, 11, 12]⟩ : NDArray) =
      .ok [(str "language_model.model.layers." ++
              layerIdxOf (str "transformer/layer_12/mlp/gating_einsum") ++
              str ".mlp.gate_proj.weight",
            (⟨.float32, [2, 2, 3], [1, 2, 3, 4, 5, 6, 7, 8, 9, 10, 11, 12]⟩ : NDArray).sub0),
           (str "language_model.model.layers." ++
              layerIdxOf (str "transformer/layer_12/mlp/gating_einsum") ++
              str ".mlp.up_proj.weight",
            (⟨.float32, [2, 2, 3], [1, 2, 3, 4, 5, 6, 7, 8, 9, 10, 11, 12]⟩ : NDArray).sub1)] ∧
      (⟨.float32, [2, 2, 3], [1, 2, 3, 4, 5, 6, 7, 8, 9, 10, 11, 12]⟩ : NDArray).sub0.shape =
        [2, 3] ∧
      (⟨.float32, [2, 2, 3], [1, 2, 3, 4, 5, 6, 7, 8, 9, 10, 11, 12]⟩ : NDArray).sub1.shape =
        [2, 3] :=
  claim_C3_gating_split ⟨1, 1, 1, 2⟩ (str "w")
    ⟨.float32, [2, 2, 3], [1, 2, 3, 4, 5, 6, 7, 8, 9, 10, 11, 12]⟩ 2 3
    (by decide) (by decide) rfl

/-! ### Classification of the decoder-block rules -/

inductive LayerLeafKind where
  | attnVec | keyNorm | kvEinsum | qEinsum | queryNorm
  | gating | linear | postAttn | postFfw | preAttn | preFfw
deriving DecidableEq

/-- The path suffix the decoder-block dispatch matches for each rule. -/
def layerSuffix : LayerLeafKind → Str
  | .attnVec => str "attn/attn_vec_einsum"
  | .keyNorm => str "attn/_key_norm"
  | .kvEinsum => str "attn/kv_einsum"
  | .qEinsum => str "attn/q_einsum"
  | .queryNorm => str "attn/_query_norm"
  | .gating => str "mlp/gating_einsum"
  | .linear => str "mlp/linear"
  | .postAttn => str "post_attention_norm"
  | .postFfw => str "post_ffw_norm"
  | .preAttn => str "pre_attention_norm"
  | .preFfw => str "pre_ffw_norm"

/-- The body of each decoder-block rule. -/
def layerBody (config : Gemma3TextConfig) (k : LayerLeafKind) (bp : Str) (w : NDArray) :
    Except ConvError (List Str × List NDArray) :=
  match k with
  | .attnVec => do
    let a ← liftShape (w.permute [2, 0, 1])
    let a ← liftShape
      (a.reshapeTo [config.hidden_size, config.num_attention_heads * config.head_dim])
    Except.ok ([bp ++ str ".self_attn.o_proj.weight"], [a])
  | .keyNorm => .ok ([bp ++ str ".self_attn.k_norm.weight"], [w])
  | .kvEinsum => do
    let kv ← liftShape w.unstack2
    let k ← liftShape (kv.1.permute [0, 2, 1])
    let k ← liftShape
      (k.reshapeTo [config.num_key_value_heads * config.head_dim, config.hidden_size])
    let v ← liftShape (kv.2.permute [0, 2, 1])
    let v ← liftShape
      (v.reshapeTo [config.num_key_value_heads * config.head_dim, config.hidden_size])
    Except.ok ([bp ++ str ".self_attn.k_proj.weight",
      bp ++ str ".self_attn.v_proj.weight"], [k, v])
  | .qEinsum => do
    let a ← liftShape (w.permute [0, 2, 1])
    let a ← liftShape
      (a.reshapeTo [config.num_attention_heads * config.head_dim, config.hidden_size])
    Except.ok ([bp ++ str ".self_attn.q_proj.weight"], [a])
  | .queryNorm => .ok ([bp ++ str ".self_attn.q_norm.weight"], [w])
  | .gating => do
    let gu ← liftShape w.unstack2
    Except.ok ([bp ++ str ".mlp.gate_proj.weight",
      bp ++ str ".mlp.up_proj.weight"], [gu.1, gu.2])
  | .linear => .ok ([bp ++ str ".mlp.down_proj.weight"], [w.transposeAll])
  | .postAttn => .ok ([bp ++ str ".post_attention_layernorm.weight"], [w])
  | .postFfw => .ok ([bp ++ str ".post_feedforward_layernorm.weight"], [w])
  | .preAttn => .ok ([bp ++ str ".input_layernorm.weight"], [w])
  | .preFfw => .ok ([bp ++ str ".pre_feedforward_layernorm.weight"], [w])

theorem layerDispatch_eq_of_kind (config : Gemma3TextConfig) {path : Str} (bp : Str)
    (w : NDArray) (k : LayerLeafKind) (h : layerSuffix k <:+ path) :
    layerDispatch config path bp w = layerBody config k bp w := by
  cases k
  · exact layerDispatch_eq_attnVec config bp w h
  · exact layerDispatch_eq_keyNorm config bp w h
  · exact layerDispatch_eq_kv config bp w h
  · exact layerDispatch_eq_q config bp w h
  · exact layerDispatch_eq_queryNorm config bp w h
  · exact layerDispatch_eq_gating config bp w h
  · exact layerDispatch_eq_linear config bp w h
  · exact layerDispatch_eq_postAttn config bp w h
  · exact layerDispatch_eq_postFfw config bp w h
  · exact layerDispatch_eq_preAttn config bp w h
  · exact layerDispatch_eq_preFfw config bp w h

theorem layerDispatch_cases (config : Gemma3TextConfig) (path bp : Str) (w : NDArray) :
    (∃ k : LayerLeafKind, layerSuffix k <:+ path ∧
      layerDispatch config path bp w = layerBody config k bp w) ∨
    ((∀ k : LayerLeafKind, ¬ layerSuffix k <:+ path) ∧
      layerDispatch config path bp w = .error .badPath) := by
  by_cases h1 : str "attn/attn_vec_einsum" <:+ path
  · exact Or.inl ⟨.attnVec, h1, layerDispatch_eq_of_kind config bp w .attnVec h1⟩
  by_cases h2 : str "attn/_key_norm" <:+ path
  · exact Or.inl ⟨.keyNorm, h2, layerDispatch_eq_of_kind config bp w .keyNorm h2⟩
  by_cases h3 : str "attn/kv_einsum" <:+ path
  · exact Or.inl ⟨.kvEinsum, h3, layerDispatch_eq_of_kind config bp w .kvEinsum h3⟩
  by_cases h4 : str "attn/q_einsum" <:+ path
  · exact Or.inl ⟨.qEinsum, h4, layerDispatch_eq_of_kind config bp w .qEinsum h4⟩
  by_cases h5 : str "attn/_query_norm" <:+ path
  · exact Or.inl ⟨.queryNorm, h5, layerDispatch_eq_of_kind config bp w .queryNorm h5⟩
  by_cases h6 : str "mlp/gating_einsum" <:+ path
  · exact Or.inl ⟨.gating, h6, layerDispatch_eq_of_kind config bp w .gating h6⟩
  by_cases h7 : str "mlp/linear" <:+ path
  · exact Or.inl ⟨.linear, h7, layerDispatch_eq_of_kind config bp w .linear h7⟩
  by_cases h8 : str "post_attention_norm" <:+ path
  · exact Or.inl ⟨.postAttn, h8, layerDispatch_eq_of_kind config bp w .postAttn h8⟩
  by_cases h9 : str "post_ffw_norm" <:+ path
  · exact Or.inl ⟨.postFfw, h9, layerDispatch_eq_of_kind config bp w .postFfw h9⟩
  by_cases h10 : str "pre_attention_norm" <:+ path
  · exact Or.inl ⟨.preAttn, h10, layerDispatch_eq_of_kind config bp w .preAttn h10⟩
  by_cases h11 : str "pre_ffw_norm" <:+ path
  · exact Or.inl ⟨.preFfw, h11, layerDispatch_eq_of_kind config bp w .preFfw h11⟩
  refine Or.inr ⟨fun k => ?_, ?_⟩
  · cases k <;> assumption
  · unfold layerDispatch
    rw [if_neg h1, if_neg h2, if_neg h3, if_neg h4, if_neg h5, if_neg h6, if_neg h7,
      if_neg h8, if_neg h9, if_neg h10, if_neg h11]

/-! ### Ok/error analysis of the rule bodies -/

theorem except_bind_err {ε α β : Type} (e : ε) (f : α → Except ε β) :
    (Except.error e >>= f : Except ε β) = Except.error e := rfl

theorem liftShape_bind_ok {α β : Type} {o : Option α} {f : α → Except ConvError β} {b : β}
    (h : (liftShape o >>= f) = .ok b) : ∃ a, o = some a ∧ f a = .ok b := by
  cases o with
  | none => simp [liftShape, except_bind_err] at h
  | some a => exact ⟨a, rfl, by simpa [liftShape, except_bind_ok] using h⟩

theorem liftShape_bind_master {α β : Type} (o : Option α) (f : α → Except ConvError β) :
    (liftShape o >>= f) = .error .shapeMismatch ∨
      ∃ a, o = some a ∧ (liftShape o >>= f) = f a := by
  cases o with
  | none => exact Or.inl rfl
  | some a => exact Or.inr ⟨a, rfl, rfl⟩

/-- The destination-key tails (after the per-layer base path) of each
decoder-block rule. -/
def layerTails : LayerLeafKind → List Str
  | .attnVec => [str ".self_attn.o_proj.weight"]
  | .keyNorm => [str ".self_attn.k_norm.weight"]
  | .kvEinsum => [str ".self_attn.k_proj.weight", str ".self_attn.v_proj.weight"]
  | .qEinsum => [str ".self_attn.q_proj.weight"]
  | .queryNorm => [str ".self_attn.q_norm.weight"]
  | .gating => [str ".mlp.gate_proj.weight", str ".mlp.up_proj.weight"]
  | .linear => [str ".mlp.down_proj.weight"]
  | .postAttn => [str ".post_attention_layernorm.weight"]
  | .postFfw => [str ".post_feedforward_layernorm.weight"]
  | .preAttn => [str ".input_layernorm.weight"]
  | .preFfw => [str ".pre_feedforward_layernorm.weight"]

theorem layerBody_ok_spec {config : Gemma3TextConfig} {k : LayerLeafKind} {bp : Str}
    {w : NDArray} {ps : List Str} {ws : List NDArray}
    (h : layerBody config k bp w = .ok (ps, ws)) :
    ps = (layerTails k).map (fun t => bp ++ t) ∧ ws.length = ps.length := by
  cases k
  all_goals unfold layerBody at h
  all_goals repeat obtain ⟨_, _, h⟩ := liftShape_bind_ok h
  all_goals
    (injection h with h'
     injection h' with h1 h2
     subst h1
     subst h2
     exact ⟨rfl, rfl⟩)

theorem layerBody_master (config : Gemma3TextConfig) (k : LayerLeafKind) (bp : Str)
    (w : NDArray) :
    (∃ ps ws, layerBody config k bp w = .ok (ps, ws)) ∨
      layerBody config k bp w = .error .shapeMismatch := by
  cases k
  all_goals simp only [layerBody]
  case keyNorm => exact Or.inl ⟨_, _, rfl⟩
  case queryNorm => exact Or.inl ⟨_, _, rfl⟩
  case linear => exact Or.inl ⟨_, _, rfl⟩
  case postAttn => exact Or.inl ⟨_, _, rfl⟩
  case postFfw => exact Or.inl ⟨_, _, rfl⟩
  case preAttn => exact Or.inl ⟨_, _, rfl⟩
  case preFfw => exact Or.inl ⟨_, _, rfl⟩
  case attnVec =>
    cases hp : w.permute [2, 0, 1] with
    | none => exact Or.inr rfl
    | some a =>
      simp only [liftShape, except_bind_ok]
      cases hr : a.reshapeTo [config.hidden_size, config.num_attention_heads * config.head_dim] with
      | none => exact Or.inr rfl
      | some b => exact Or.inl ⟨_, _, rfl⟩
  case qEinsum =>
    cases hp : w.permute [0, 2, 1] with
    | none => exact Or.inr rfl
    | some a =>
      simp only [liftShape, except_bind_ok]
      cases hr : a.reshapeTo [config.num_attention_heads * config.head_dim, config.hidden_size] with
      | none => exact Or.inr rfl
      | some b => exact Or.inl ⟨_, _, rfl⟩
  case gating =>
    cases hu : w.unstack2 with
    | none => exact Or.inr rfl
    | some gu => exact Or.inl ⟨_, _, rfl⟩
  case kvEinsum =>
    cases hu : w.unstack2 with
    | none => exact Or.inr rfl
    | some kv =>
      simp only [liftShape, except_bind_ok]
      cases hp1 : kv.1.permute [0, 2, 1] with
      | none => exact Or.inr rfl
      | some a1 =>
        simp only [liftShape, except_bind_ok]
        cases hr1 : a1.reshapeTo [config.num_key_value_heads * config.head_dim,
            config.hidden_size] with
        | none => exact Or.inr rfl
        | some b1 =>
          simp only [liftShape, except_bind_ok]
          cases hp2 : kv.2.permute [0, 2, 1] with
          | none => exact Or.inr rfl
          | some a2 =>
            simp only [liftShape, except_bind_ok]
            cases hr2 : a2.reshapeTo [config.num_key_value_heads * config.head_dim,
                config.hidden_size] with
            | none => exact Or.inr rfl
            | some b2 => exact Or.inl ⟨_, _, rfl⟩

theorem layerDispatch_master (config : Gemma3TextConfig) (path bp : Str) (w : NDArray) :
    (∃ ps ws, layerDispatch config path bp w = .ok (ps, ws)) ∨
      layerDispatch config path bp w = .error .shapeMismatch ∨
      layerDispatch config path bp w = .error .badPath := by
  rcases layerDispatch_cases config path bp w with ⟨k, _, heq⟩ | ⟨_, heq⟩
  · rw [heq]
    rcases layerBody_master config k bp w with hok | he
    · exact Or.inl hok
    · exact Or.inr (Or.inl he)
  · exact Or.inr (Or.inr heq)

/-- The recognized text-branch rule shapes: the pairs of source path and
leaf-property that `_convert_transformer_weights` dispatches to a rule
rather than raising. -/
def recognizedText (path prop : Str) : Prop :=
  (path = _TRANSFORMER_EMBEDDER ∧
    (prop = str "input_embedding" ∨ prop = str "mm_input_embedding_extra" ∨
      prop = str "mm_output_embedding")) ∨
  ((_TRANSFORMER_EMBEDDER ++ str "/mm") <+: path ∧
    (str "/mm_input_projection" <:+ path ∨ str "/mm_soft_embedding_norm" <:+ path)) ∨
  path = _TRANSFORMER_FINAL_NORM ∨
  (_TRANSFORMER_DECODER_BLOCK <+: path ∧ ∃ k : LayerLeafKind, layerSuffix k <:+ path)

instance instDecLayerLeafEx (path : Str) : Decidable (∃ k : LayerLeafKind, layerSuffix k <:+ path) := by
  have : (∃ k : LayerLeafKind, layerSuffix k <:+ path) ↔
      (layerSuffix .attnVec <:+ path ∨ layerSuffix .keyNorm <:+ path ∨
       layerSuffix .kvEinsum <:+ path ∨ layerSuffix .qEinsum <:+ path ∨
       layerSuffix .queryNorm <:+ path ∨ layerSuffix .gating <:+ path ∨
       layerSuffix .linear <:+ path ∨ layerSuffix .postAttn <:+ path ∨
       layerSuffix .postFfw <:+ path ∨ layerSuffix .preAttn <:+ path ∨
       layerSuffix .preFfw <:+ path) := by
    constructor
    · rintro ⟨k, hk⟩
      cases k <;> simp [hk]
    · rintro (h | h | h | h | h | h | h | h | h | h | h)
      exacts [⟨_, h⟩, ⟨_, h⟩, ⟨_, h⟩, ⟨_, h⟩, ⟨_, h⟩, ⟨_, h⟩, ⟨_, h⟩, ⟨_, h⟩, ⟨_, h⟩,
        ⟨_, h⟩, ⟨_, h⟩]
  exact decidable_of_iff _ this.symm

instance instDecRecognizedText (path prop : Str) : Decidable (recognizedText path prop) := by
  unfold recognizedText
  infer_instance

/-- The embedder-branch reduction of `textRule`. -/
theorem textRule_eq_embedder (config : Gemma3TextConfig) {path : Str} (prop : Str)
    (w : NDArray) (h : path = _TRANSFORMER_EMBEDDER) :
    textRule config path prop w =
      (if prop = str "input_embedding" then
        .ok ([str "language_model.model.embed_tokens.weight",
              str "language_model.lm_head.weight"], [w, w])
      else if prop = str "mm_input_embedding_extra" then .ok ([], [])
      else if prop = str "mm_output_embedding" then .ok ([], [])
      else .error .badMember) := by
  unfold textRule
  rw [if_pos h]

/-- The embedder-mm-subpath reduction of `textRule`. -/
theorem textRule_eq_embedderMm (config : Gemma3TextConfig) {path : Str} (prop : Str)
    (w : NDArray) (h : (_TRANSFORMER_EMBEDDER ++ str "/mm") <+: path) :
    textRule config path prop w =
      (if str "/mm_input_projection" <:+ path then .ok ([], [])
      else if str "/mm_soft_embedding_norm" <:+ path then .ok ([], [])
      else .error .badPath) := by
  have h1 : ¬ path = _TRANSFORMER_EMBEDDER := by
    intro he
    exact absurd (he ▸ h) (by decide)
  unfold textRule
  rw [if_neg h1, if_pos h]

/-- The final-norm reduction of `textRule`. -/
theorem textRule_eq_finalNorm (config : Gemma3TextConfig) {path : Str} (prop : Str)
    (w : NDArray) (h : path = _TRANSFORMER_FINAL_NORM) :
    textRule config path prop w = .ok ([str "language_model.model.norm.weight"], [w]) := by
  subst h
  rfl

/-- The fall-through reduction of `textRule`: no top-level shape matches. -/
theorem textRule_eq_badPath (config : Gemma3TextConfig) {path : Str} (prop : Str)
    (w : NDArray) (h1 : ¬ path = _TRANSFORMER_EMBEDDER)
    (h2 : ¬ (_TRANSFORMER_EMBEDDER ++ str "/mm") <+: path)
    (h3 : ¬ path = _TRANSFORMER_FINAL_NORM)
    (h4 : ¬ _TRANSFORMER_DECODER_BLOCK <+: path) :
    textRule config path prop w = .error .badPath := by
  unfold textRule
  rw [if_neg h1, if_neg h2, if_neg h3, if_neg h4]

theorem textRule_master (config : Gemma3TextConfig) (path prop : Str) (w : NDArray) :
    (∃ ps ws, textRule config path prop w = .ok (ps, ws)) ∨
      textRule config path prop w = .error .badPath ∨
      textRule config path prop w = .error .badMember ∨
      textRule config path prop w = .error .shapeMismatch := by
  by_cases h1 : path = _TRANSFORMER_EMBEDDER
  · rw [textRule_eq_embedder config prop w h1]
    by_cases ha : prop = str "input_embedding"
    · rw [if_pos ha]
      exact Or.inl ⟨_, _, rfl⟩
    rw [if_neg ha]
    by_cases hb : prop = str "mm_input_embedding_extra"
    · rw [if_pos hb]
      exact Or.inl ⟨_, _, rfl⟩
    rw [if_neg hb]
    by_cases hc : prop = str "mm_output_embedding"
    · rw [if_pos hc]
      exact Or.inl ⟨_, _, rfl⟩
    rw [if_neg hc]
    exact Or.inr (Or.inr (Or.inl rfl))
  by_cases h2 : (_TRANSFORMER_EMBEDDER ++ str "/mm") <+: path
  · rw [textRule_eq_embedderMm config prop w h2]
    by_cases ha : str "/mm_input_projection" <:+ path
    · rw [if_pos ha]
      exact Or.inl ⟨_, _, rfl⟩
    rw [if_neg ha]
    by_cases hb : str "/mm_soft_embedding_norm" <:+ path
    · rw [if_pos hb]
      exact Or.inl ⟨_, _, rfl⟩
    rw [if_neg hb]
    exact Or.inr (Or.inl rfl)
  by_cases h3 : path = _TRANSFORMER_FINAL_NORM
  · rw [textRule_eq_finalNorm config prop w h3]
    exact Or.inl ⟨_, _, rfl⟩
  by_cases h4 : _TRANSFORMER_DECODER_BLOCK <+: path
  · rw [textRule_eq_layerDispatch config prop w h4]
    rcases layerDispatch_master config path
        (str "language_model.model.layers." ++ layerIdxOf path) w with hok | he | he
    · exact Or.inl hok
    · exact Or.inr (Or.inr (Or.inr he))
    · exact Or.inr (Or.inl he)
  · rw [textRule_eq_badPath config prop w h1 h2 h3 h4]
    exact Or.inr (Or.inl rfl)

theorem textRule_ne_lengthMismatch (config : Gemma3TextConfig) (path prop : Str)
    (w : NDArray) : textRule config path prop w ≠ .error .lengthMismatch := by
  rcases textRule_master config path prop w with ⟨ps, ws, h⟩ | h | h | h <;> rw [h] <;> intro hc
  · exact Except.noConfusion hc
  all_goals
    injection hc with hc'
    exact ConvError.noConfusion hc'

theorem textRule_ok_spec {config : Gemma3TextConfig} {path prop : Str} {w : NDArray}
    {ps : List Str} {ws : List NDArray}
    (h : textRule config path prop w = .ok (ps, ws)) :
    ps.length = ws.length ∧ ps.length ≤ 2 ∧
      ∀ q ∈ ps, str "language_model." <+: q := by
  by_cases h1 : path = _TRANSFORMER_EMBEDDER
  · rw [textRule_eq_embedder config prop w h1] at h
    by_cases ha : prop = str "input_embedding"
    · rw [if_pos ha] at h
      injection h with h'
      injection h' with hp hw
      subst hp
      subst hw
      exact ⟨rfl, by simp, by decide⟩
    rw [if_neg ha] at h
    by_cases hb : prop = str "mm_input_embedding_extra"
    · rw [if_pos hb] at h
      injection h with h'
      injection h' with hp hw
      subst hp
      subst hw
      exact ⟨rfl, by simp, by simp⟩
    rw [if_neg hb] at h
    by_cases hc : prop = str "mm_output_embedding"
    · rw [if_pos hc] at h
      injection h with h'
      injection h' with hp hw
      subst hp
      subst hw
      exact ⟨rfl, by simp, by simp⟩
    rw [if_neg hc] at h
    exact Except.noConfusion h
  by_cases h2 : (_TRANSFORMER_EMBEDDER ++ str "/mm") <+: path
  · rw [textRule_eq_embedderMm config prop w h2] at h
    by_cases ha : str "/mm_input_projection" <:+ path
    · rw [if_pos ha] at h
      injection h with h'
      injection h' with hp hw
      subst hp
      subst hw
      exact ⟨rfl, by simp, by simp⟩
    rw [if_neg ha] at h
    by_cases hb : str "/mm_soft_embedding_norm" <:+ path
    · rw [if_pos hb] at h
      injection h with h'
      injection h' with hp hw
      subst hp
      subst hw
      exact ⟨rfl, by simp, by simp⟩
    rw [if_neg hb] at h
    exact Except.noConfusion h
  by_cases h3 : path = _TRANSFORMER_FINAL_NORM
  · rw [textRule_eq_finalNorm config prop w h3] at h
    injection h with h'
    injection h' with hp hw
    subst hp
    subst hw
    exact ⟨rfl, by simp, by decide⟩
  by_cases h4 : _TRANSFORMER_DECODER_BLOCK <+: path
  · rw [textRule_eq_layerDispatch config prop w h4] at h
    rcases layerDispatch_cases config path
        (str "language_model.model.layers." ++ layerIdxOf path) w with ⟨k, _, heq⟩ | ⟨_, heq⟩
    · rw [heq] at h
      obtain ⟨hps, hlen⟩ := layerBody_ok_spec h
      subst hps
      refine ⟨hlen.symm, ?_, ?_⟩
      · cases k <;> simp [layerTails]
      · intro q hq
        obtain ⟨t, _, rfl⟩ := List.mem_map.mp hq
        have hbase : str "language_model." <+:
            str "language_model.model.layers." ++ layerIdxOf path :=
          List.IsPrefix.trans (by decide) (List.prefix_append _ _)
        exact hbase.trans (List.prefix_append _ _)
    · rw [heq] at h
      exact Except.noConfusion h
  · rw [textRule_eq_badPath config prop w h1 h2 h3 h4] at h
    exact Except.noConfusion h

theorem eq_append_drop_of_prefix {p s : Str} (h : p <+: s) :
    s = p ++ s.drop p.length := by
  conv_lhs => rw [← List.take_append_drop p.length s]
  rw [← List.prefix_iff_eq_take.mp h]

/-- Claim C7: for every source leaf on which the text-branch body returns
without error, the produced destination-path list and transformed-array
list have equal length (0, 1 or 2), so the internal length-mismatch error
branch of `_convert_transformer_weights` is unreachable. -/
theorem claim_C7_count_consistency (config : Gemma3TextConfig) (path prop : Str)
    (w : NDArray) :
    (∀ ps ws, textRule config path prop w = .ok (ps, ws) →
      ps.length = ws.length ∧ ps.length ≤ 2) ∧
    _convert_transformer_weights config path prop w ≠ .error .lengthMismatch := by
  constructor
  · intro ps ws h
    obtain ⟨h1, h2, _⟩ := textRule_ok_spec h
    exact ⟨h1, h2⟩
  · intro hc
    cases ht : textRule config path prop w with
    | error e =>
      have hv : _convert_transformer_weights config path prop w = .error e := by
        unfold _convert_transformer_weights
        rw [ht]
      rw [hv] at hc
      injection hc with hc'
      exact textRule_ne_lengthMismatch config path prop w (hc' ▸ ht)
    | ok pr =>
      obtain ⟨ps, ws⟩ := pr
      have hlen := (textRule_ok_spec ht).1
      have hv : _convert_transformer_weights config path prop w = .ok (ps.zip ws) := by
        unfold _convert_transformer_weights
        rw [ht]
        exact if_pos hlen
      rw [hv] at hc
      exact Except.noConfusion hc

/-- Witness for claim C7 at the final-norm leaf. -/
theorem claim_C7_count_consistency_witness :
    ([str "language_model.model.norm.weight"].length =
        [(⟨.float32, [2], [1, 2]⟩ : NDArray)].length ∧
      [str "language_model.model.norm.weight"].length ≤ 2) ∧
    _convert_transformer_weights ⟨1, 1, 1, 2⟩ (str "transformer/final_norm")
      (str "scale") ⟨.float32, [2], [1, 2]⟩ ≠ .error .lengthMismatch :=
  ⟨(claim_C7_count_consistency ⟨1, 1, 1, 2⟩ (str "transformer/final_norm")
      (str "scale") ⟨.float32, [2], [1, 2]⟩).1 _ _ rfl,
   (claim_C7_count_consistency ⟨1, 1, 1, 2⟩ (str "transformer/final_norm")
      (str "scale") ⟨.float32, [2], [1, 2]⟩).2⟩

/-- Claim C10 (implicit): every destination path produced by
`_convert_transformer_weights` begins with the literal `language_model.`,
so the orchestrator's fixed-length slice removes exactly that prefix. -/
theorem claim_C10_lm_prefix (config : Gemma3TextConfig) (path prop : Str) (w : NDArray)
    (l : List (Str × NDArray))
    (h : _convert_transformer_weights config path prop w = .ok l) :
    ∀ kv ∈ l, str "language_model." <+: kv.1 ∧
      kv.1 = str "language_model." ++ kv.1.drop (str "language_model.").length := by
  cases ht : textRule config path prop w with
  | error e =>
    have hv : _convert_transformer_weights config path prop w = .error e := by
      unfold _convert_transformer_weights
      rw [ht]
    rw [hv] at h
    exact Except.noConfusion h
  | ok pr =>
    obtain ⟨ps, ws⟩ := pr
    obtain ⟨hlen, _, hpre⟩ := textRule_ok_spec ht
    have hv : _convert_transformer_weights config path prop w = .ok (ps.zip ws) := by
      unfold _convert_transformer_weights
      rw [ht]
      exact if_pos hlen
    rw [hv] at h
    injection h with h'
    subst h'
    intro kv hkv
    obtain ⟨q, v⟩ := kv
    have hmem : q ∈ ps := (List.of_mem_zip hkv).1
    have hp := hpre q hmem
    exact ⟨hp, eq_append_drop_of_prefix hp⟩

/-- Witness for claim C10 at the embedder leaf. -/
theorem claim_C10_lm_prefix_witness :
    str "language_model." <+: str "language_model.model.embed_tokens.weight" ∧
      str "language_model.model.embed_tokens.weight" =
        str "language_model." ++
          (str "language_model.model.embed_tokens.weight").drop
            (str "language_model.").length := by
  have h := claim_C10_lm_prefix ⟨1, 1, 1, 2⟩ (str "transformer/embedder")
    (str "input_embedding") ⟨.float32, [2], [1, 2]⟩ _ rfl
  exact h (str "language_model.model.embed_tokens.weight",
    (⟨.float32, [2], [1, 2]⟩ : NDArray)) (by decide)

/-! ### Raises-iff analysis (claim C6) -/

/-- The array shape each decoder-block rule expects (only the stacked /
einsum rules constrain the shape; the norm rules accept anything). -/
def kindShapeOk (config : Gemma3TextConfig) (k : LayerLeafKind) (w : NDArray) : Prop :=
  match k with
  | .attnVec =>
    w.shape = [config.num_attention_heads, config.head_dim, config.hidden_size]
  | .kvEinsum =>
    w.shape = [2, config.num_key_value_heads, config.hidden_size, config.head_dim]
  | .qEinsum =>
    w.shape = [config.num_attention_heads, config.hidden_size, config.head_dim]
  | .gating => w.shape.head? = some 2
  | _ => True

instance instDecKindShapeOk (config : Gemma3TextConfig) (k : LayerLeafKind) (w : NDArray) :
    Decidable (kindShapeOk config k w) := by
  cases k <;> dsimp only [kindShapeOk] <;> infer_instance

theorem layerBody_ok_of_shapes (config : Gemma3TextConfig) (k : LayerLeafKind) (bp : Str)
    (w : NDArray) (hsh : kindShapeOk config k w) :
    ∃ ps ws, layerBody config k bp w = .ok (ps, ws) := by
  cases k
  case keyNorm => exact ⟨_, _, rfl⟩
  case queryNorm => exact ⟨_, _, rfl⟩
  case linear => exact ⟨_, _, rfl⟩
  case postAttn => exact ⟨_, _, rfl⟩
  case postFfw => exact ⟨_, _, rfl⟩
  case preAttn => exact ⟨_, _, rfl⟩
  case preFfw => exact ⟨_, _, rfl⟩
  case attnVec =>
    simp only [kindShapeOk] at hsh
    obtain ⟨a, hp, hsha, _, _⟩ := permute_some_of_valid w [2, 0, 1]
      (by rw [hsh]; rfl) (by rw [hsh]; rfl)
    have hsha' : a.shape =
        [config.hidden_size, config.num_attention_heads, config.head_dim] := by
      rw [hsha, hsh]; rfl
    have hr := reshapeTo_some_of_prod a
      [config.hidden_size, config.num_attention_heads * config.head_dim]
      (by rw [hsha']; simp [List.prod_cons]; try ring)
    refine ⟨[bp ++ str ".self_attn.o_proj.weight"],
      [⟨a.dtype, [config.hidden_size, config.num_attention_heads * config.head_dim],
        a.data⟩], ?_⟩
    simp only [layerBody, hp, liftShape, except_bind_ok, hr]
  case qEinsum =>
    simp only [kindShapeOk] at hsh
    obtain ⟨a, hp, hsha, _, _⟩ := permute_some_of_valid w [0, 2, 1]
      (by rw [hsh]; rfl) (by rw [hsh]; rfl)
    have hsha' : a.shape =
        [config.num_attention_heads, config.head_dim, config.hidden_size] := by
      rw [hsha, hsh]; rfl
    have hr := reshapeTo_some_of_prod a
      [config.num_attention_heads * config.head_dim, config.hidden_size]
      (by rw [hsha']; simp [List.prod_cons]; try ring)
    refine ⟨[bp ++ str ".self_attn.q_proj.weight"],
      [⟨a.dtype, [config.num_attention_heads * config.head_dim, config.hidden_size],
        a.data⟩], ?_⟩
    simp only [layerBody, hp, liftShape, except_bind_ok, hr]
  case gating =>
    simp only [kindShapeOk] at hsh
    have hsh' : ∃ rest, w.shape = 2 :: rest := by
      cases he : w.shape with
      | nil => rw [he] at hsh; exact Option.noConfusion hsh
      | cons a rest =>
        rw [he] at hsh
        injection hsh with h2
        exact ⟨rest, by rw [h2]⟩
    obtain ⟨rest, hrest⟩ := hsh'
    have hu := unstack2_of_shape hrest
    refine ⟨[bp ++ str ".mlp.gate_proj.weight", bp ++ str ".mlp.up_proj.weight"],
      [w.sub0, w.sub1], ?_⟩
    simp only [layerBody, hu, liftShape, except_bind_ok]
  case kvEinsum =>
    simp only [kindShapeOk] at hsh
    have hu := unstack2_of_shape hsh
    have hs0 : w.sub0.shape =
        [config.num_key_value_heads, config.hidden_size, config.head_dim] := by
      simp [NDArray.sub0, hsh]
    have hs1 : w.sub1.shape =
        [config.num_key_value_heads, config.hidden_size, config.head_dim] := by
      simp [NDArray.sub1, hsh]
    obtain ⟨a0, hp0, hsh0, _, _⟩ := permute_some_of_valid w.sub0 [0, 2, 1]
      (by rw [hs0]; rfl) (by rw [hs0]; rfl)
    obtain ⟨a1, hp1, hsh1, _, _⟩ := permute_some_of_valid w.sub1 [0, 2, 1]
      (by rw [hs1]; rfl) (by rw [hs1]; rfl)
    have hsh0' : a0.shape =
        [config.num_key_value_heads, config.head_dim, config.hidden_size] := by
      rw [hsh0, hs0]; rfl
    have hsh1' : a1.shape =
        [config.num_key_value_heads, config.head_dim, config.hidden_size] := by
      rw [hsh1, hs1]; rfl
    have hr0 := reshapeTo_some_of_prod a0
      [config.num_key_value_heads * config.head_dim, config.hidden_size]
      (by rw [hsh0']; simp [List.prod_cons]; try ring)
    have hr1 := reshapeTo_some_of_prod a1
      [config.num_key_value_heads * config.head_dim, config.hidden_size]
      (by rw [hsh1']; simp [List.prod_cons]; try ring)
    refine ⟨[bp ++ str ".self_attn.k_proj.weight", bp ++ str ".self_attn.v_proj.weight"],
      [⟨a0.dtype, [config.num_key_value_heads * config.head_dim, config.hidden_size],
        a0.data⟩,
       ⟨a1.dtype, [config.num_key_value_heads * config.head_dim, config.hidden_size],
        a1.data⟩], ?_⟩
    simp only [layerBody, hu, liftShape, except_bind_ok, hp0, hp1, hr0, hr1]

theorem textRule_ok_of_recognized (config : Gemma3TextConfig) (path prop : Str)
    (w : NDArray) (hrec : recognizedText path prop)
    (hsh : ∀ k : LayerLeafKind, layerSuffix k <:+ path → kindShapeOk config k w) :
    ∃ ps ws, textRule config path prop w = .ok (ps, ws) := by
  rcases hrec with ⟨hpath, hprop⟩ | ⟨hmm, hsfx⟩ | hfin | ⟨hpre, k, hk⟩
  · rw [textRule_eq_embedder config prop w hpath]
    rcases hprop with ha | hb | hc
    · rw [if_pos ha]
      exact ⟨_, _, rfl⟩
    · rw [if_neg (by rw [hb]; decide), if_pos hb]
      exact ⟨_, _, rfl⟩
    · rw [if_neg (by rw [hc]; decide), if_neg (by rw [hc]; decide), if_pos hc]
      exact ⟨_, _, rfl⟩
  · rw [textRule_eq_embedderMm config prop w hmm]
    rcases hsfx with ha | hb
    · rw [if_pos ha]
      exact ⟨_, _, rfl⟩
    · rw [if_neg (not_suffix_of_short hb (by decide) (by decide)), if_pos hb]
      exact ⟨_, _, rfl⟩
  · rw [textRule_eq_finalNorm config prop w hfin]
    exact ⟨_, _, rfl⟩
  · rw [textRule_eq_layerDispatch config prop w hpre,
      layerDispatch_eq_of_kind config _ w k hk]
    exact layerBody_ok_of_shapes config k _ w (hsh k hk)

theorem conv_ok_of_recognized (config : Gemma3TextConfig) (path prop : Str)
    (w : NDArray) (hrec : recognizedText path prop)
    (hsh : ∀ k : LayerLeafKind, layerSuffix k <:+ path → kindShapeOk config k w) :
    ∃ l, _convert_transformer_weights config path prop w = .ok l := by
  obtain ⟨ps, ws, ht⟩ := textRule_ok_of_recognized config path prop w hrec hsh
  refine ⟨ps.zip ws, ?_⟩
  unfold _convert_transformer_weights
  rw [ht]
  exact if_pos (textRule_ok_spec ht).1

theorem conv_err_of_not_recognized (config : Gemma3TextConfig) (path prop : Str)
    (w : NDArray) (h : ¬ recognizedText path prop) :
    ∃ e, _convert_transformer_weights config path prop w = .error e := by
  have step : ∃ e, textRule config path prop w = .error e := by
    by_cases h1 : path = _TRANSFORMER_EMBEDDER
    · have ha : ¬ prop = str "input_embedding" :=
        fun hp => h (Or.inl ⟨h1, Or.inl hp⟩)
      have hb : ¬ prop = str "mm_input_embedding_extra" :=
        fun hp => h (Or.inl ⟨h1, Or.inr (Or.inl hp)⟩)
      have hc : ¬ prop = str "mm_output_embedding" :=
        fun hp => h (Or.inl ⟨h1, Or.inr (Or.inr hp)⟩)
      rw [textRule_eq_embedder config prop w h1, if_neg ha, if_neg hb, if_neg hc]
      exact ⟨_, rfl⟩
    by_cases h2 : (_TRANSFORMER_EMBEDDER ++ str "/mm") <+: path
    · have ha : ¬ str "/mm_input_projection" <:+ path :=
        fun hp => h (Or.inr (Or.inl ⟨h2, Or.inl hp⟩))
      have hb : ¬ str "/mm_soft_embedding_norm" <:+ path :=
        fun hp => h (Or.inr (Or.inl ⟨h2, Or.inr hp⟩))
      rw [textRule_eq_embedderMm config prop w h2, if_neg ha, if_neg hb]
      exact ⟨_, rfl⟩
    by_cases h3 : path = _TRANSFORMER_FINAL_NORM
    · exact absurd (Or.inr (Or.inr (Or.inl h3))) h
    by_cases h4 : _TRANSFORMER_DECODER_BLOCK <+: path
    · rw [textRule_eq_layerDispatch config prop w h4]
      rcases layerDispatch_cases config path
          (str "language_model.model.layers." ++ layerIdxOf path) w with
        ⟨k, hk, _⟩ | ⟨_, heq⟩
      · exact absurd (Or.inr (Or.inr (Or.inr ⟨h4, k, hk⟩))) h
      · exact ⟨_, heq⟩
    · rw [textRule_eq_badPath config prop w h1 h2 h3 h4]
      exact ⟨_, rfl⟩
  obtain ⟨e, he⟩ := step
  refine ⟨e, ?_⟩
  unfold _convert_transformer_weights
  rw [he]

/-- Claim C6 (amended): provided the arrays at the stacked/einsum decoder
leaves have the shapes the rules expect, `_convert_transformer_weights`
raises an error if and only if the source path / leaf-property matches no
recognized rule shape.  (As literally stated the claim is refuted by
`claim_C6_counterexample`: a recognized kv_einsum leaf still raises when
the stacked axis does not have extent 2.) -/
theorem claim_C6_raises_iff (config : Gemma3TextConfig) (path prop : Str) (w : NDArray)
    (hsh : ∀ k : LayerLeafKind, layerSuffix k <:+ path → kindShapeOk config k w) :
    (∃ e, _convert_transformer_weights config path prop w = .error e) ↔
      ¬ recognizedText path prop := by
  constructor
  · rintro ⟨e, he⟩ hrec
    obtain ⟨l, hl⟩ := conv_ok_of_recognized config path prop w hrec hsh
    rw [hl] at he
    exact Except.noConfusion he
  · exact conv_err_of_not_recognized config path prop w

/-- Counterexample to claim C6 as stated: the kv_einsum path and any
leaf-property form a recognized rule shape, yet the converter raises when
the array's leading axis has extent 3 instead of 2. -/
theorem claim_C6_counterexample :
    recognizedText (str "transformer/layer_0/attn/kv_einsum") (str "w") ∧
    _convert_transformer_weights ⟨1, 1, 1, 2⟩
      (str "transformer/layer_0/attn/kv_einsum") (str "w")
      ⟨.float32, [3, 1, 2, 1], [1, 2, 3, 4, 5, 6]⟩ = .error .shapeMismatch := by
  constructor
  · exact Or.inr (Or.inr (Or.inr ⟨by decide, .kvEinsum, by decide⟩))
  · rfl

/-- Witness for claim C6 on the two spec scenarios: the multimodal
embedder leaf yields no error, and the unrecognized decoder leaf errors. -/
theorem claim_C6_raises_iff_witness :
    (¬ ∃ e, _convert_transformer_weights ⟨1, 1, 1, 2⟩ (str "transformer/embedder")
      (str "mm_output_embedding") ⟨.float32, [2], [1, 2]⟩ = .error e) ∧
    (∃ e, _convert_transformer_weights ⟨1, 1, 1, 2⟩
      (str "transformer/layer_0/mlp/unknown_leaf") (str "w")
      ⟨.float32, [2], [1, 2]⟩ = .error e) := by
  constructor
  · intro he
    exact (claim_C6_raises_iff ⟨1, 1, 1, 2⟩ (str "transformer/embedder")
      (str "mm_output_embedding") ⟨.float32, [2], [1, 2]⟩
      (by intro k hk; cases k <;> revert hk <;> decide)).mp he (by decide)
  · exact (claim_C6_raises_iff ⟨1, 1, 1, 2⟩
      (str "transformer/layer_0/mlp/unknown_leaf") (str "w")
      ⟨.float32, [2], [1, 2]⟩
      (by intro k hk; cases k <;> revert hk <;> decide)).mpr (by decide)

/-! ### Vision attention transforms (claim C8) -/

/-- The suffix routing of the vision attention sub-dispatch: which
projection (if any) an encoder-block attention sub-path selects. -/
def visAttnProj (ebp : Str) : Option Str :=
  if str "/key" <:+ ebp then some (str ".self_attn.k_proj")
  else if str "/out" <:+ ebp then some (str ".self_attn.out_proj")
  else if str "/query" <:+ ebp then some (str ".self_attn.q_proj")
  else if str "/value" <:+ ebp then some (str ".self_attn.v_proj")
  else none

theorem siglipAttnDispatch_spec (config : Gemma3VisionConfig) (path ebp np prop : Str)
    (w : NDArray) :
    siglipAttnDispatch config path ebp np prop w =
      (match visAttnProj ebp with
       | none => .error .badPath
       | some pj =>
         if prop = str "bias" then
           liftShape (w.reshapeNeg1 config.hidden_size) >>= fun t =>
             .ok (np ++ pj ++ str ".bias", t.flatten1)
         else if prop = str "kernel" then
           liftShape (w.reshapeNeg1 config.hidden_size) >>= fun t =>
             .ok (np ++ pj ++ str ".weight", t.transposeAll)
         else .error .badMember) := by
  unfold siglipAttnDispatch visAttnProj
  by_cases h1 : str "/key" <:+ ebp
  · simp only [if_pos h1, except_bind_ok]
  simp only [if_neg h1]
  by_cases h2 : str "/out" <:+ ebp
  · simp only [if_pos h2, except_bind_ok]
  simp only [if_neg h2]
  by_cases h3 : str "/query" <:+ ebp
  · simp only [if_pos h3, except_bind_ok]
  simp only [if_neg h3]
  by_cases h4 : str "/value" <:+ ebp
  · simp only [if_pos h4, except_bind_ok]
  simp only [if_neg h4]
  rfl

theorem siglip_eq_block (config : Gemma3VisionConfig) {path : Str} (prop : Str)
    (w : NDArray) (h : _SIGLIP_TRANSFORMER_ENCODER_BLOCK <+: path) :
    _convert_siglip_weight config path prop w =
      siglipBlockDispatch config path
        (pySliceFrom (path.drop _SIGLIP_TRANSFORMER_ENCODER_BLOCK_LEN)
          (pyFind (path.drop _SIGLIP_TRANSFORMER_ENCODER_BLOCK_LEN) '/'))
        (str "vision_model.vision_model.encoder.layers." ++
          pySliceTo (path.drop _SIGLIP_TRANSFORMER_ENCODER_BLOCK_LEN)
            (pyFind (path.drop _SIGLIP_TRANSFORMER_ENCODER_BLOCK_LEN) '/'))
        prop w := by
  have h1 : ¬ path = _SIGLIP_BASE := fun he => absurd (he ▸ h) (by decide)
  have h2 : ¬ path = _SIGLIP_EMBEDDING := fun he => absurd (he ▸ h) (by decide)
  unfold _convert_siglip_weight
  rw [if_neg h1, if_neg h2, if_pos h]

theorem siglip_block_split (config : Gemma3VisionConfig) (ds r prop : Str) (w : NDArray)
    (hds : ∀ c ∈ ds, c ≠ '/') :
    _convert_siglip_weight config
        (_SIGLIP_TRANSFORMER_ENCODER_BLOCK ++ (ds ++ '/' :: r)) prop w =
      siglipBlockDispatch config (_SIGLIP_TRANSFORMER_ENCODER_BLOCK ++ (ds ++ '/' :: r))
        ('/' :: r) (str "vision_model.vision_model.encoder.layers." ++ ds) prop w := by
  rw [siglip_eq_block config prop w (List.prefix_append _ _)]
  simp only [_SIGLIP_TRANSFORMER_ENCODER_BLOCK_LEN]
  rw [List.drop_left, pySliceFrom_append_cons hds, pySliceTo_append_cons hds]

/-- Claim C8: for every vision encoder-block source path under the
attention marker, if the suffix routes to the query, key, value or output
projection then `_convert_siglip_weight` produces exactly one pair: a
`bias` leaf is reshaped to `(-1, hidden_size)` and flattened to 1-D, a
`kernel` leaf is reshaped to `(-1, hidden_size)` and transposed; any other
leaf-property, and any unmatched suffix, raises an error. -/
theorem claim_C8_vision_attention (config : Gemma3VisionConfig) (ds sub prop : Str)
    (w : NDArray) (hds : ∀ c ∈ ds, c ≠ '/')
    (hsub : str "/MultiHeadDotProductAttention_0" <+: sub) :
    (∀ pj, visAttnProj sub = some pj →
      (prop = str "bias" → 0 < config.hidden_size →
        config.hidden_size ∣ w.shape.prod →
        ∃ t, w.reshapeNeg1 config.hidden_size = some t ∧
          _convert_siglip_weight config
              (_SIGLIP_TRANSFORMER_ENCODER_BLOCK ++ (ds ++ sub)) prop w =
            .ok (str "vision_model.vision_model.encoder.layers." ++ ds ++ pj ++
              str ".bias", t.flatten1)) ∧
      (prop = str "kernel" → 0 < config.hidden_size →
        config.hidden_size ∣ w.shape.prod →
        ∃ t, w.reshapeNeg1 config.hidden_size = some t ∧
          _convert_siglip_weight config
              (_SIGLIP_TRANSFORMER_ENCODER_BLOCK ++ (ds ++ sub)) prop w =
            .ok (str "vision_model.vision_model.encoder.layers." ++ ds ++ pj ++
              str ".weight", t.transposeAll)) ∧
      (¬ prop = str "bias" → ¬ prop = str "kernel" →
        _convert_siglip_weight config
            (_SIGLIP_TRANSFORMER_ENCODER_BLOCK ++ (ds ++ sub)) prop w =
          .error .badMember)) ∧
    (visAttnProj sub = none →
      _convert_siglip_weight config
          (_SIGLIP_TRANSFORMER_ENCODER_BLOCK ++ (ds ++ sub)) prop w =
        .error .badPath) := by
  have hsub' := hsub
  obtain ⟨tl, htl⟩ := hsub'
  have hsubeq : sub = '/' :: (str "MultiHeadDotProductAttention_0" ++ tl) := by
    rw [← htl]
    rfl
  have hblk : _convert_siglip_weight config
      (_SIGLIP_TRANSFORMER_ENCODER_BLOCK ++ (ds ++ sub)) prop w =
      siglipBlockDispatch config (_SIGLIP_TRANSFORMER_ENCODER_BLOCK ++ (ds ++ sub))
        sub (str "vision_model.vision_model.encoder.layers." ++ ds) prop w := by
    conv_lhs => rw [hsubeq]
    rw [siglip_block_split config ds _ prop w hds, ← hsubeq]
  have hln : ¬ str "/LayerNorm" <+: sub :=
    not_prefix_of_short hsub (by decide) (by decide)
  have hmlp : ¬ str "/MlpBlock_0" <+: sub :=
    not_prefix_of_short hsub (by decide) (by decide)
  have hdisp : siglipBlockDispatch config
      (_SIGLIP_TRANSFORMER_ENCODER_BLOCK ++ (ds ++ sub)) sub
      (str "vision_model.vision_model.encoder.layers." ++ ds) prop w =
      siglipAttnDispatch config (_SIGLIP_TRANSFORMER_ENCODER_BLOCK ++ (ds ++ sub)) sub
        (str "vision_model.vision_model.encoder.layers." ++ ds) prop w := by
    unfold siglipBlockDispatch
    rw [if_neg hln, if_neg hmlp, if_pos hsub]
  rw [hblk, hdisp, siglipAttnDispatch_spec]
  constructor
  · intro pj hpj
    rw [hpj]
    refine ⟨?_, ?_, ?_⟩
    · intro hb hpos hdvd
      have hrs : w.reshapeNeg1 config.hidden_size =
          some ⟨w.dtype, [w.shape.prod / config.hidden_size, config.hidden_size],
            w.data⟩ := by
        unfold NDArray.reshapeNeg1
        rw [if_pos ⟨hpos, hdvd⟩]
      refine ⟨_, hrs, ?_⟩
      simp only [if_pos hb, hrs, liftShape, except_bind_ok]
    · intro hk hpos hdvd
      have hrs : w.reshapeNeg1 config.hidden_size =
          some ⟨w.dtype, [w.shape.prod / config.hidden_size, config.hidden_size],
            w.data⟩ := by
        unfold NDArray.reshapeNeg1
        rw [if_pos ⟨hpos, hdvd⟩]
      refine ⟨_, hrs, ?_⟩
      simp only [if_neg (by rw [hk]; decide : ¬ prop = str "bias"), if_pos hk, hrs,
        liftShape, except_bind_ok]
    · intro hnb hnk
      simp only [if_neg hnb, if_neg hnk]
  · intro hnone
    rw [hnone]

/-- Witness for claim C8: the query-projection kernel of encoder block 3
with hidden size 2. -/
theorem claim_C8_vision_attention_witness :
    ∃ t, NDArray.reshapeNeg1 2 (⟨.float32, [2, 2, 2], [1, 2, 3, 4, 5, 6, 7, 8]⟩ : NDArray) =
        some t ∧
      _convert_siglip_weight ⟨2⟩
          (_SIGLIP_TRANSFORMER_ENCODER_BLOCK ++
            (str "3" ++ str "/MultiHeadDotProductAttention_0/query")) (str "kernel")
          ⟨.float32, [2, 2, 2], [1, 2, 3, 4, 5, 6, 7, 8]⟩ =
        .ok (str "vision_model.vision_model.encoder.layers." ++ str "3" ++
          str ".self_attn.q_proj" ++ str ".weight", t.transposeAll) :=
  (((claim_C8_vision_attention ⟨2⟩ (str "3")
      (str "/MultiHeadDotProductAttention_0/query") (str "kernel")
      ⟨.float32, [2, 2, 2], [1, 2, 3, 4, 5, 6, 7, 8]⟩
      (by decide) (by decide)).1
    (str ".self_attn.q_proj") (by decide)).2.1 rfl (by decide) (by decide))

/-! ### Precision-cast pipeline (claim C9) -/

theorem convertLeaf_vals {config : Gemma3Config} {dt : DType} {lf : Leaf}
    {l : List (Str × NDArray)} (h : convertLeaf config dt lf = .ok l) :
    ∀ kv ∈ l, ∃ w, kv.2 = update_tree_value dt w := by
  unfold convertLeaf at h
  by_cases hs : str "SigLiPFromPatches_" <+: lf.path
  · rw [if_pos hs] at h
    cases hv : config.vision_config with
    | none =>
      rw [hv] at h
      injection h with h'
      subst h'
      intro kv hkv
      exact absurd hkv (List.not_mem_nil kv)
    | some vc =>
      rw [hv] at h
      dsimp only at h
      cases hcs : _convert_siglip_weight vc lf.path lf.prop lf.value with
      | error e =>
        rw [hcs] at h
        exact Except.noConfusion h
      | ok pw =>
        rw [hcs] at h
        simp only [except_bind_ok] at h
        injection h with h'
        subst h'
        intro kv hkv
        rcases List.mem_singleton.mp hkv with rfl
        exact ⟨pw.2, rfl⟩
  · rw [if_neg hs] at h
    cases hct : _convert_transformer_weights config.text_config lf.path lf.prop lf.value with
    | error e =>
      rw [hct] at h
      exact Except.noConfusion h
    | ok prs =>
      rw [hct] at h
      simp only [except_bind_ok] at h
      injection h with h'
      subst h'
      intro kv hkv
      obtain ⟨pw, _, rfl⟩ := List.mem_map.mp hkv
      exact ⟨pw.2, rfl⟩

/-- Claim C9: every tensor inserted into the destination mapping by
`convert` passes through `update_tree` (upcast to float32, then cast to
the configured target dtype), so every stored value has exactly the target
dtype. -/
theorem claim_C9_precision_cast (config : Gemma3Config) (dt : DType) (leaves : List Leaf)
    (pairs : List (Str × NDArray)) (h : convertEmits config dt leaves = .ok pairs) :
    ∀ kv ∈ pairs, (∃ w, kv.2 = update_tree_value dt w) ∧ kv.2.dtype = dt := by
  induction leaves generalizing pairs with
  | nil =>
    injection h with h'
    subst h'
    intro kv hkv
    exact absurd hkv (List.not_mem_nil kv)
  | cons lf rest ih =>
    have hc : convertEmits config dt (lf :: rest) =
        (convertLeaf config dt lf) >>= fun head =>
          (convertEmits config dt rest) >>= fun tail => .ok (head ++ tail) := rfl
    rw [hc] at h
    cases hl : convertLeaf config dt lf with
    | error e =>
      rw [hl] at h
      exact Except.noConfusion h
    | ok head =>
      rw [hl] at h
      simp only [except_bind_ok] at h
      cases hr : convertEmits config dt rest with
      | error e =>
        rw [hr] at h
        exact Except.noConfusion h
      | ok tail =>
        rw [hr] at h
        simp only [except_bind_ok] at h
        injection h with h'
        subst h'
        intro kv hkv
        rcases List.mem_append.mp hkv with hm | hm
        · obtain ⟨w, hw⟩ := convertLeaf_vals hl kv hm
          exact ⟨⟨w, hw⟩, by rw [hw]; rfl⟩
        · exact ih tail hr kv hm

/-- Witness for claim C9: a one-leaf run at bfloat16 target precision. -/
theorem claim_C9_precision_cast_witness :
    (∃ w, update_tree_value .bfloat16 (⟨.float32, [2], [1, 2]⟩ : NDArray) =
        update_tree_value .bfloat16 w) ∧
      (update_tree_value .bfloat16 (⟨.float32, [2], [1, 2]⟩ : NDArray)).dtype =
        .bfloat16 := by
  have h := claim_C9_precision_cast ⟨⟨1, 1, 1, 2⟩, none⟩ .bfloat16
    [⟨str "transformer/final_norm", str "scale", ⟨.float32, [2], [1, 2]⟩⟩] _ rfl
  exact h (str "model.norm.weight",
    update_tree_value .bfloat16 (⟨.float32, [2], [1, 2]⟩ : NDArray)) (by decide)

/-! ### Canonical source-leaf shapes (claims C1 and C5)

The uniqueness and vision-skip claims quantify over source parameter
trees.  `SourceShape` enumerates the canonical leaf shapes of a Gemma 3
Orbax checkpoint — exactly the path/leaf-property forms the two rule
tables recognize — with the layer index kept as an arbitrary digit
string. -/

inductive VisProp where
  | scale | bias | kernel
deriving DecidableEq

def visPropStr : VisProp → Str
  | .scale => str "scale"
  | .bias => str "bias"
  | .kernel => str "kernel"

inductive VisBlockPart where
  | ln0 | ln1 | dense0 | dense1 | attnKey | attnOut | attnQuery | attnValue
deriving DecidableEq

def visPartStr : VisBlockPart → Str
  | .ln0 => str "/LayerNorm_0"
  | .ln1 => str "/LayerNorm_1"
  | .dense0 => str "/MlpBlock_0/Dense_0"
  | .dense1 => str "/MlpBlock_0/Dense_1"
  | .attnKey => str "/MultiHeadDotProductAttention_0/key"
  | .attnOut => str "/MultiHeadDotProductAttention_0/out"
  | .attnQuery => str "/MultiHeadDotProductAttention_0/query"
  | .attnValue => str "/MultiHeadDotProductAttention_0/value"

inductive SourceShape where
  | embedInput
  | embedMmExtra
  | embedMmOut
  | mmProj
  | mmNorm
  | finalNorm
  | layer (ds : Str) (k : LayerLeafKind)
  | visBase
  | visEmbed (pr : VisProp)
  | visBlock (ds : Str) (part : VisBlockPart) (pr : VisProp)
  | visEncNorm (pr : VisProp)
deriving DecidableEq

instance : Fintype LayerLeafKind where
  elems := ⟨([.attnVec, .keyNorm, .kvEinsum, .qEinsum, .queryNorm, .gating, .linear,
    .postAttn, .postFfw, .preAttn, .preFfw] : List LayerLeafKind), by decide⟩
  complete := by intro x; cases x <;> decide

instance : Fintype VisProp where
  elems := ⟨([.scale, .bias, .kernel] : List VisProp), by decide⟩
  complete := by intro x; cases x <;> decide

instance : Fintype VisBlockPart where
  elems := ⟨([.ln0, .ln1, .dense0, .dense1, .attnKey, .attnOut, .attnQuery,
    .attnValue] : List VisBlockPart), by decide⟩
  complete := by intro x; cases x <;> decide

def SourceShape.path : SourceShape → Str
  | .embedInput => _TRANSFORMER_EMBEDDER
  | .embedMmExtra => _TRANSFORMER_EMBEDDER
  | .embedMmOut => _TRANSFORMER_EMBEDDER
  | .mmProj => str "transformer/embedder/mm/mm_input_projection"
  | .mmNorm => str "transformer/embedder/mm/mm_soft_embedding_norm"
  | .finalNorm => _TRANSFORMER_FINAL_NORM
  | .layer ds k => _TRANSFORMER_DECODER_BLOCK ++ (ds ++ '/' :: layerSuffix k)
  | .visBase => _SIGLIP_BASE
  | .visEmbed _ => _SIGLIP_EMBEDDING
  | .visBlock ds part _ => _SIGLIP_TRANSFORMER_ENCODER_BLOCK ++ (ds ++ visPartStr part)
  | .visEncNorm _ => _SIGLIP_TRANSFORMER_ENCODER_NORM

def SourceShape.prop : SourceShape → Str
  | .embedInput => str "input_embedding"
  | .embedMmExtra => str "mm_input_embedding_extra"
  | .embedMmOut => str "mm_output_embedding"
  | .mmProj => str "w"
  | .mmNorm => str "w"
  | .finalNorm => str "scale"
  | .layer _ _ => str "w"
  | .visBase => str "pos_embedding"
  | .visEmbed pr => visPropStr pr
  | .visBlock _ _ pr => visPropStr pr
  | .visEncNorm pr => visPropStr pr

/-- Which leaf-properties go with which vision block part. -/
def visPartPropOk : VisBlockPart → VisProp → Prop
  | .ln0, pr => pr = .scale ∨ pr = .bias
  | .ln1, pr => pr = .scale ∨ pr = .bias
  | _, pr => pr = .kernel ∨ pr = .bias

instance instDecVisPartPropOk (part : VisBlockPart) (pr : VisProp) :
    Decidable (visPartPropOk part pr) := by
  cases part <;> dsimp only [visPartPropOk] <;> infer_instance

def SourceShape.WF : SourceShape → Prop
  | .layer ds _ => ∀ c ∈ ds, c.isDigit
  | .visBlock ds part pr => (∀ c ∈ ds, c.isDigit) ∧ visPartPropOk part pr
  | .visEmbed pr => pr = .kernel ∨ pr = .bias
  | .visEncNorm pr => pr = .scale ∨ pr = .bias
  | _ => True

def SourceShape.mkLeaf (d : SourceShape) (arr : NDArray) : Leaf :=
  ⟨d.path, d.prop, arr⟩

/-- `.weight` for scale/kernel leaves, `.bias` for bias leaves. -/
def visWB : VisProp → Str
  | .bias => str ".bias"
  | _ => str ".weight"

def visBlockSection : VisBlockPart → Str
  | .ln0 => str ".layer_norm1"
  | .ln1 => str ".layer_norm2"
  | .dense0 => str ".mlp.fc1"
  | .dense1 => str ".mlp.fc2"
  | .attnKey => str ".self_attn.k_proj"
  | .attnOut => str ".self_attn.out_proj"
  | .attnQuery => str ".self_attn.q_proj"
  | .attnValue => str ".self_attn.v_proj"

def visBlockTail (part : VisBlockPart) (pr : VisProp) : Str :=
  visBlockSection part ++ visWB pr

/-- The destination keys `convert` inserts for one canonical source leaf
(depending on whether a vision component is configured). -/
def leafKeys (visPresent : Bool) : SourceShape → List Str
  | .embedInput =>
    if visPresent then
      [str "language_model.model.embed_tokens.weight", str "language_model.lm_head.weight"]
    else [str "model.embed_tokens.weight", str "lm_head.weight"]
  | .embedMmExtra => []
  | .embedMmOut => []
  | .mmProj => []
  | .mmNorm => []
  | .finalNorm =>
    if visPresent then [str "language_model.model.norm.weight"]
    else [str "model.norm.weight"]
  | .layer ds k =>
    (layerTails k).map (fun t =>
      (if visPresent then str "language_model.model.layers." else str "model.layers.") ++
        ds ++ t)
  | .visBase =>
    if visPresent then [str "vision_model.vision_model.embeddings.position_embedding.weight"]
    else []
  | .visEmbed pr =>
    if visPresent then [str "vision_model.vision_model.embeddings.patch_embedding" ++ visWB pr]
    else []
  | .visBlock ds part pr =>
    if visPresent then
      [str "vision_model.vision_model.encoder.layers." ++ ds ++ visBlockTail part pr]
    else []
  | .visEncNorm pr =>
    if visPresent then [str "vision_model.vision_model.post_layernorm" ++ visWB pr]
    else []

theorem strip_layer_key (ds t : Str) :
    (str "language_model.model.layers." ++ ds ++ t).drop (str "language_model.").length =
      str "model.layers." ++ ds ++ t := by
  have hsplit : str "language_model.model.layers." =
      str "language_model." ++ str "model.layers." := rfl
  rw [hsplit, List.append_assoc, List.append_assoc, List.drop_left, ← List.append_assoc]



theorem convertLeaf_text {config : Gemma3Config} {dt : DType} {p pr : Str} {arr : NDArray}
    {l : List (Str × NDArray)} (hs : ¬ str "SigLiPFromPatches_" <+: p)
    (h : convertLeaf config dt ⟨p, pr, arr⟩ = .ok l) :
    ∃ prs, _convert_transformer_weights config.text_config p pr arr = .ok prs ∧
      l.map Prod.fst = prs.map (fun pw =>
        if config.vision_config.isNone then pw.1.drop (str "language_model.").length
        else pw.1) := by
  unfold convertLeaf at h
  rw [if_neg hs] at h
  cases hct : _convert_transformer_weights config.text_config p pr arr with
  | error e => rw [hct] at h; exact Except.noConfusion h
  | ok prs =>
    rw [hct] at h
    simp only [except_bind_ok] at h
    injection h with h'
    subst h'
    refine ⟨prs, rfl, ?_⟩
    rw [List.map_map]
    rfl

theorem convertLeaf_vis {config : Gemma3Config} {dt : DType} {vc : Gemma3VisionConfig}
    {p pr : Str} {arr : NDArray} {l : List (Str × NDArray)}
    (hv : config.vision_config = some vc) (hs : str "SigLiPFromPatches_" <+: p)
    (h : convertLeaf config dt ⟨p, pr, arr⟩ = .ok l) :
    ∃ pw, _convert_siglip_weight vc p pr arr = .ok pw ∧ l.map Prod.fst = [pw.1] := by
  unfold convertLeaf at h
  rw [if_pos hs, hv] at h
  dsimp only at h
  cases hcs : _convert_siglip_weight vc p pr arr with
  | error e => rw [hcs] at h; exact Except.noConfusion h
  | ok pw =>
    rw [hcs] at h
    simp only [except_bind_ok] at h
    injection h with h'
    subst h'
    exact ⟨pw, rfl, rfl⟩

theorem convertLeaf_vis_none {config : Gemma3Config} {dt : DType}
    {p pr : Str} {arr : NDArray} {l : List (Str × NDArray)}
    (hv : config.vision_config = none) (hs : str "SigLiPFromPatches_" <+: p)
    (h : convertLeaf config dt ⟨p, pr, arr⟩ = .ok l) : l = [] := by
  unfold convertLeaf at h
  rw [if_pos hs, hv] at h
  dsimp only at h
  injection h with h'
  exact h'.symm

theorem layerIdxOf_canonical (ds r : Str) (hds : ∀ c ∈ ds, c.isDigit) :
    layerIdxOf (_TRANSFORMER_DECODER_BLOCK ++ (ds ++ '/' :: r)) = ds := by
  have hds' : ∀ c ∈ ds, c ≠ '/' := by
    intro c hc he
    have := hds c hc
    rw [he] at this
    exact absurd this (by decide)
  unfold layerIdxOf
  simp only [_TRANSFORMER_DECODER_BLOCK_LEN]
  rw [List.drop_left, pySliceTo_append_cons hds']

theorem textRule_layer_canonical (config : Gemma3TextConfig) (ds : Str)
    (k : LayerLeafKind) (pr : Str) (arr : NDArray) (hds : ∀ c ∈ ds, c.isDigit) :
    textRule config (_TRANSFORMER_DECODER_BLOCK ++ (ds ++ '/' :: layerSuffix k)) pr arr =
      layerBody config k (str "language_model.model.layers." ++ ds) arr := by
  have hpre : _TRANSFORMER_DECODER_BLOCK <+:
      _TRANSFORMER_DECODER_BLOCK ++ (ds ++ '/' :: layerSuffix k) :=
    List.prefix_append _ _
  have hsfx : layerSuffix k <:+ _TRANSFORMER_DECODER_BLOCK ++ (ds ++ '/' :: layerSuffix k) := by
    have h1 : layerSuffix k <:+ '/' :: layerSuffix k := List.suffix_cons _ _
    have h2 : ('/' :: layerSuffix k) <:+
        (_TRANSFORMER_DECODER_BLOCK ++ ds) ++ ('/' :: layerSuffix k) :=
      List.suffix_append _ _
    rw [List.append_assoc] at h2
    exact h1.trans h2
  rw [textRule_eq_layerDispatch config pr arr hpre,
    layerDispatch_eq_of_kind config _ arr k hsfx,
    layerIdxOf_canonical ds (layerSuffix k) hds]



theorem map_fst_comp_zip {α β γ : Type} (F : α → γ) (ps : List α) (ws : List β)
    (hle : ps.length ≤ ws.length) :
    (ps.zip ws).map (fun pw => F pw.1) = ps.map F := by
  rw [show (fun pw : α × β => F pw.1) = F ∘ Prod.fst from rfl, ← List.map_map,
    List.map_fst_zip ps ws hle]

theorem convertLeaf_keys {config : Gemma3Config} {dt : DType} {d : SourceShape}
    {arr : NDArray} {l : List (Str × NDArray)} (hwf : d.WF)
    (h : convertLeaf config dt (d.mkLeaf arr) = .ok l) :
    l.map Prod.fst = leafKeys config.vision_config.isSome d := by
  cases d with
  | embedInput =>
    obtain ⟨prs, hct, hmap⟩ := convertLeaf_text (by decide) h
    dsimp only [SourceShape.path, SourceShape.prop] at hct
    have heval : _convert_transformer_weights config.text_config _TRANSFORMER_EMBEDDER
        (str "input_embedding") arr =
        .ok [(str "language_model.model.embed_tokens.weight", arr),
             (str "language_model.lm_head.weight", arr)] := rfl
    rw [heval] at hct
    injection hct with h'
    subst h'
    rw [hmap]
    cases hv : config.vision_config <;> rfl
  | embedMmExtra =>
    obtain ⟨prs, hct, hmap⟩ := convertLeaf_text (by decide) h
    dsimp only [SourceShape.path, SourceShape.prop] at hct
    have heval : _convert_transformer_weights config.text_config _TRANSFORMER_EMBEDDER
        (str "mm_input_embedding_extra") arr = .ok [] := rfl
    rw [heval] at hct
    injection hct with h'
    subst h'
    rw [hmap]
    cases hv : config.vision_config <;> rfl
  | embedMmOut =>
    obtain ⟨prs, hct, hmap⟩ := convertLeaf_text (by decide) h
    dsimp only [SourceShape.path, SourceShape.prop] at hct
    have heval : _convert_transformer_weights config.text_config _TRANSFORMER_EMBEDDER
        (str "mm_output_embedding") arr = .ok [] := rfl
    rw [heval] at hct
    injection hct with h'
    subst h'
    rw [hmap]
    cases hv : config.vision_config <;> rfl
  | mmProj =>
    obtain ⟨prs, hct, hmap⟩ := convertLeaf_text (by decide) h
    dsimp only [SourceShape.path, SourceShape.prop] at hct
    have heval : _convert_transformer_weights config.text_config
        (str "transformer/embedder/mm/mm_input_projection") (str "w") arr = .ok [] := rfl
    rw [heval] at hct
    injection hct with h'
    subst h'
    rw [hmap]
    cases hv : config.vision_config <;> rfl
  | mmNorm =>
    obtain ⟨prs, hct, hmap⟩ := convertLeaf_text (by decide) h
    dsimp only [SourceShape.path, SourceShape.prop] at hct
    have heval : _convert_transformer_weights config.text_config
        (str "transformer/embedder/mm/mm_soft_embedding_norm") (str "w") arr = .ok [] := rfl
    rw [heval] at hct
    injection hct with h'
    subst h'
    rw [hmap]
    cases hv : config.vision_config <;> rfl
  | finalNorm =>
    obtain ⟨prs, hct, hmap⟩ := convertLeaf_text (by decide) h
    dsimp only [SourceShape.path, SourceShape.prop] at hct
    have heval : _convert_transformer_weights config.text_config _TRANSFORMER_FINAL_NORM
        (str "scale") arr = .ok [(str "language_model.model.norm.weight", arr)] := rfl
    rw [heval] at hct
    injection hct with h'
    subst h'
    rw [hmap]
    cases hv : config.vision_config <;> rfl
  | layer ds k =>
    have hs : ¬ str "SigLiPFromPatches_" <+: (SourceShape.layer ds k).path := by
      dsimp only [SourceShape.path]
      exact not_prefix_of_long (List.prefix_append _ _) (by decide) (by decide)
    obtain ⟨prs, hct, hmap⟩ := convertLeaf_text hs h
    unfold _convert_transformer_weights at hct
    rw [show (SourceShape.layer ds k).path =
        _TRANSFORMER_DECODER_BLOCK ++ (ds ++ '/' :: layerSuffix k) from rfl] at hct
    rw [textRule_layer_canonical config.text_config ds k _ arr hwf] at hct
    cases hlb : layerBody config.text_config k (str "language_model.model.layers." ++ ds)
        arr with
    | error e => rw [hlb] at hct; exact Except.noConfusion hct
    | ok pr =>
      obtain ⟨ps, ws⟩ := pr
      obtain ⟨hps, hlen⟩ := layerBody_ok_spec hlb
      rw [hlb] at hct
      rw [show (match (Except.ok (ps, ws) : Except ConvError (List Str × List NDArray)) with
          | Except.error e => Except.error e
          | Except.ok (ps, ws) =>
            if ps.length = ws.length then Except.ok (ps.zip ws)
            else Except.error ConvError.lengthMismatch) =
          if ps.length = ws.length then Except.ok (ps.zip ws)
          else Except.error ConvError.lengthMismatch from rfl] at hct
      rw [if_pos hlen.symm] at hct
      injection hct with h'
      subst h'
      have hle : ps.length ≤ ws.length := le_of_eq hlen.symm
      rw [hmap, map_fst_comp_zip (fun q : Str =>
        if config.vision_config.isNone = true then
          q.drop (str "language_model.").length else q) ps ws hle, hps, List.map_map]
      cases hv : config.vision_config with
      | none =>
        simp only [leafKeys, Option.isSome_none, Bool.false_eq_true, if_false]
        refine List.map_congr_left ?_
        intro t ht
        simp only [Function.comp, Option.isNone_none, if_pos]
        exact strip_layer_key ds t
      | some vc =>
        simp only [leafKeys, Option.isSome_some, if_pos]
        refine List.map_congr_left ?_
        intro t ht
        simp only [Function.comp, Option.isNone_some, Bool.false_eq_true, if_false]
  | visBase =>
    cases hv : config.vision_config with
    | none =>
      have hl := convertLeaf_vis_none hv (by decide) h
      subst hl
      rfl
    | some vc =>
      obtain ⟨pw, hsw, hmap⟩ := convertLeaf_vis hv (by decide) h
      dsimp only [SourceShape.path, SourceShape.prop] at hsw
      unfold _convert_siglip_weight at hsw
      rw [if_pos rfl] at hsw
      cases hrs : NDArray.reshapeNeg1 vc.hidden_size arr with
      | none =>
        rw [hrs] at hsw
        simp [liftShape, except_bind_err] at hsw
      | some t =>
        rw [hrs] at hsw
        simp only [liftShape, except_bind_ok] at hsw
        injection hsw with h'
        subst h'
        rw [hmap]
        rfl
  | visEmbed pr =>
    cases hv : config.vision_config with
    | none =>
      have hl := convertLeaf_vis_none hv (by dsimp only [SourceShape.path]; decide) h
      subst hl
      rfl
    | some vc =>
      obtain ⟨pw, hsw, hmap⟩ :=
        convertLeaf_vis hv (by dsimp only [SourceShape.path]; decide) h
      dsimp only [SourceShape.path, SourceShape.prop] at hsw
      unfold _convert_siglip_weight at hsw
      rw [if_neg (by decide), if_pos rfl] at hsw
      rcases hwf with hk | hb
      · subst hk
        dsimp only [visPropStr] at hsw
        rw [if_pos rfl] at hsw
        cases hp : NDArray.permute [3, 2, 0, 1] arr with
        | none =>
          rw [hp] at hsw
          simp [liftShape, except_bind_err] at hsw
        | some t =>
          rw [hp] at hsw
          simp only [liftShape, except_bind_ok] at hsw
          injection hsw with h'
          subst h'
          rw [hmap]
          rfl
      · subst hb
        dsimp only [visPropStr] at hsw
        rw [if_neg (by decide), if_pos rfl] at hsw
        injection hsw with h'
        subst h'
        rw [hmap]
        rfl
  | visBlock ds part pr =>
    obtain ⟨hds, hok⟩ := hwf
    have hds' : ∀ c ∈ ds, c ≠ '/' := by
      intro c hc he
      have hd := hds c hc
      rw [he] at hd
      exact absurd hd (by decide)
    have hsent : str "SigLiPFromPatches_" <+: (SourceShape.visBlock ds part pr).path := by
      dsimp only [SourceShape.path]
      exact List.IsPrefix.trans (by decide) (List.prefix_append _ _)
    cases hv : config.vision_config with
    | none =>
      have hl := convertLeaf_vis_none hv hsent h
      subst hl
      rfl
    | some vc =>
      obtain ⟨pw, hsw, hmap⟩ := convertLeaf_vis hv hsent h
      dsimp only [SourceShape.path, SourceShape.prop] at hsw
      cases part with
      | ln0 =>
        dsimp only [visPartStr] at hsw
        rw [show str "/LayerNorm_0" = '/' :: str "LayerNorm_0" from rfl] at hsw
        rw [siglip_block_split vc ds (str "LayerNorm_0") (visPropStr pr) arr hds'] at hsw
        unfold siglipBlockDispatch at hsw
        rw [if_pos (by decide : str "/LayerNorm" <+: '/' :: str "LayerNorm_0")] at hsw
        have hsfx2 : ('/' :: str "LayerNorm_0") <:+
            _SIGLIP_TRANSFORMER_ENCODER_BLOCK ++ (ds ++ '/' :: str "LayerNorm_0") := by
          have h2 : ('/' :: str "LayerNorm_0") <:+
              (_SIGLIP_TRANSFORMER_ENCODER_BLOCK ++ ds) ++ ('/' :: str "LayerNorm_0") :=
            List.suffix_append _ _
          rw [List.append_assoc] at h2
          exact h2
        have hend : str "_0" <:+
            _SIGLIP_TRANSFORMER_ENCODER_BLOCK ++ (ds ++ '/' :: str "LayerNorm_0") :=
          List.IsSuffix.trans (by decide) hsfx2
        rw [if_pos hend] at hsw
        dsimp only [visPartPropOk] at hok
        rcases hok with hpr | hpr
        all_goals subst hpr
        all_goals dsimp only [visPropStr] at hsw
        · rw [if_pos rfl] at hsw
          injection hsw with h'
          subst h'
          rw [hmap]
          simp [leafKeys, visBlockTail, visBlockSection, visWB, List.append_assoc]
        · rw [if_neg (by decide), if_pos rfl] at hsw
          injection hsw with h'
          subst h'
          rw [hmap]
          simp [leafKeys, visBlockTail, visBlockSection, visWB, List.append_assoc]
      | ln1 =>
        dsimp only [visPartStr] at hsw
        rw [show str "/LayerNorm_1" = '/' :: str "LayerNorm_1" from rfl] at hsw
        rw [siglip_block_split vc ds (str "LayerNorm_1") (visPropStr pr) arr hds'] at hsw
        unfold siglipBlockDispatch at hsw
        rw [if_pos (by decide : str "/LayerNorm" <+: '/' :: str "LayerNorm_1")] at hsw
        have hsfx2 : ('/' :: str "LayerNorm_1") <:+
            _SIGLIP_TRANSFORMER_ENCODER_BLOCK ++ (ds ++ '/' :: str "LayerNorm_1") := by
          have h2 : ('/' :: str "LayerNorm_1") <:+
              (_SIGLIP_TRANSFORMER_ENCODER_BLOCK ++ ds) ++ ('/' :: str "LayerNorm_1") :=
            List.suffix_append _ _
          rw [List.append_assoc] at h2
          exact h2
        have hend : ¬ str "_0" <:+
            _SIGLIP_TRANSFORMER_ENCODER_BLOCK ++ (ds ++ '/' :: str "LayerNorm_1") :=
          not_suffix_of_short hsfx2 (by decide) (by decide)
        rw [if_neg hend] at hsw
        dsimp only [visPartPropOk] at hok
        rcases hok with hpr | hpr
        all_goals subst hpr
        all_goals dsimp only [visPropStr] at hsw
        · rw [if_pos rfl] at hsw
          injection hsw with h'
          subst h'
          rw [hmap]
          simp [leafKeys, visBlockTail, visBlockSection, visWB, List.append_assoc]
        · rw [if_neg (by decide), if_pos rfl] at hsw
          injection hsw with h'
          subst h'
          rw [hmap]
          simp [leafKeys, visBlockTail, visBlockSection, visWB, List.append_assoc]
      | dense0 =>
        dsimp only [visPartStr] at hsw
        rw [show str "/MlpBlock_0/Dense_0" = '/' :: str "MlpBlock_0/Dense_0" from rfl] at hsw
        rw [siglip_block_split vc ds (str "MlpBlock_0/Dense_0") (visPropStr pr) arr hds'] at hsw
        unfold siglipBlockDispatch at hsw
        rw [if_neg (by decide : ¬ str "/LayerNorm" <+: '/' :: str "MlpBlock_0/Dense_0")] at hsw
        rw [if_pos (by decide : str "/MlpBlock_0" <+: '/' :: str "MlpBlock_0/Dense_0")] at hsw
        rw [if_pos (by decide : str "/Dense_0" <:+: '/' :: str "MlpBlock_0/Dense_0")] at hsw
        dsimp only [visPartPropOk] at hok
        rcases hok with hpr | hpr
        all_goals subst hpr
        all_goals dsimp only [visPropStr] at hsw
        · rw [if_pos rfl] at hsw
          injection hsw with h'
          subst h'
          rw [hmap]
          simp [leafKeys, visBlockTail, visBlockSection, visWB, List.append_assoc]
        · rw [if_neg (by decide), if_pos rfl] at hsw
          injection hsw with h'
          subst h'
          rw [hmap]
          simp [leafKeys, visBlockTail, visBlockSection, visWB, List.append_assoc]
      | dense1 =>
        dsimp only [visPartStr] at hsw
        rw [show str "/MlpBlock_0/Dense_1" = '/' :: str "MlpBlock_0/Dense_1" from rfl] at hsw
        rw [siglip_block_split vc ds (str "MlpBlock_0/Dense_1") (visPropStr pr) arr hds'] at hsw
        unfold siglipBlockDispatch at hsw
        rw [if_neg (by decide : ¬ str "/LayerNorm" <+: '/' :: str "MlpBlock_0/Dense_1")] at hsw
        rw [if_pos (by decide : str "/MlpBlock_0" <+: '/' :: str "MlpBlock_0/Dense_1")] at hsw
        rw [if_neg (by decide : ¬ str "/Dense_0" <:+: '/' :: str "MlpBlock_0/Dense_1")] at hsw
        dsimp only [visPartPropOk] at hok
        rcases hok with hpr | hpr
        all_goals subst hpr
        all_goals dsimp only [visPropStr] at hsw
        · rw [if_pos rfl] at hsw
          injection hsw with h'
          subst h'
          rw [hmap]
          simp [leafKeys, visBlockTail, visBlockSection, visWB, List.append_assoc]
        · rw [if_neg (by decide), if_pos rfl] at hsw
          injection hsw with h'
          subst h'
          rw [hmap]
          simp [leafKeys, visBlockTail, visBlockSection, visWB, List.append_assoc]
      | attnKey =>
        dsimp only [visPartStr] at hsw
        rw [show str "/MultiHeadDotProductAttention_0/key" = '/' :: str "MultiHeadDotProductAttention_0/key" from rfl] at hsw
        rw [siglip_block_split vc ds (str "MultiHeadDotProductAttention_0/key") (visPropStr pr) arr hds'] at hsw
        unfold siglipBlockDispatch at hsw
        rw [if_neg (by decide : ¬ str "/LayerNorm" <+: '/' :: str "MultiHeadDotProductAttention_0/key")] at hsw
        rw [if_neg (by decide : ¬ str "/MlpBlock_0" <+: '/' :: str "MultiHeadDotProductAttention_0/key")] at hsw
        rw [if_pos (by decide : str "/MultiHeadDotProductAttention_0" <+: '/' :: str "MultiHeadDotProductAttention_0/key")] at hsw
        rw [siglipAttnDispatch_spec] at hsw
        rw [show visAttnProj ('/' :: str "MultiHeadDotProductAttention_0/key") = some (str ".self_attn.k_proj") from by decide] at hsw
        dsimp only at hsw
        dsimp only [visPartPropOk] at hok
        rcases hok with hpr | hpr
        all_goals subst hpr
        all_goals dsimp only [visPropStr] at hsw
        · rw [if_neg (by decide), if_pos rfl] at hsw
          cases hrs : NDArray.reshapeNeg1 vc.hidden_size arr with
          | none =>
            rw [hrs] at hsw
            simp [liftShape, except_bind_err] at hsw
          | some t =>
            rw [hrs] at hsw
            simp only [liftShape, except_bind_ok] at hsw
            injection hsw with h'
            subst h'
            rw [hmap]
            simp [leafKeys, visBlockTail, visBlockSection, visWB, List.append_assoc]
        · rw [if_pos rfl] at hsw
          cases hrs : NDArray.reshapeNeg1 vc.hidden_size arr with
          | none =>
            rw [hrs] at hsw
            simp [liftShape, except_bind_err] at hsw
          | some t =>
            rw [hrs] at hsw
            simp only [liftShape, except_bind_ok] at hsw
            injection hsw with h'
            subst h'
            rw [hmap]
            simp [leafKeys, visBlockTail, visBlockSection, visWB, List.append_assoc]
      | attnOut =>
        dsimp only [visPartStr] at hsw
        rw [show str "/MultiHeadDotProductAttention_0/out" = '/' :: str "MultiHeadDotProductAttention_0/out" from rfl] at hsw
        rw [siglip_block_split vc ds (str "MultiHeadDotProductAttention_0/out") (visPropStr pr) arr hds'] at hsw
        unfold siglipBlockDispatch at hsw
        rw [if_neg (by decide : ¬ str "/LayerNorm" <+: '/' :: str "MultiHeadDotProductAttention_0/out")] at hsw
        rw [if_neg (by decide : ¬ str "/MlpBlock_0" <+: '/' :: str "MultiHeadDotProductAttention_0/out")] at hsw
        rw [if_pos (by decide : str "/MultiHeadDotProductAttention_0" <+: '/' :: str "MultiHeadDotProductAttention_0/out")] at hsw
        rw [siglipAttnDispatch_spec] at hsw
        rw [show visAttnProj ('/' :: str "MultiHeadDotProductAttention_0/out") = some (str ".self_attn.out_proj") from by decide] at hsw
        dsimp only at hsw
        dsimp only [visPartPropOk] at hok
        rcases hok with hpr | hpr
        all_goals subst hpr
        all_goals dsimp only [visPropStr] at hsw
        · rw [if_neg (by decide), if_pos rfl] at hsw
          cases hrs : NDArray.reshapeNeg1 vc.hidden_size arr with
          | none =>
            rw [hrs] at hsw
            simp [liftShape, except_bind_err] at hsw
          | some t =>
            rw [hrs] at hsw
            simp only [liftShape, except_bind_ok] at hsw
            injection hsw with h'
            subst h'
            rw [hmap]
            simp [leafKeys, visBlockTail, visBlockSection, visWB, List.append_assoc]
        · rw [if_pos rfl] at hsw
          cases hrs : NDArray.reshapeNeg1 vc.hidden_size arr with
          | none =>
            rw [hrs] at hsw
            simp [liftShape, except_bind_err] at hsw
          | some t =>
            rw [hrs] at hsw
            simp only [liftShape, except_bind_ok] at hsw
            injection hsw with h'
            subst h'
            rw [hmap]
            simp [leafKeys, visBlockTail, visBlockSection, visWB, List.append_assoc]
      | attnQuery =>
        dsimp only [visPartStr] at hsw
        rw [show str "/MultiHeadDotProductAttention_0/query" = '/' :: str "MultiHeadDotProductAttention_0/query" from rfl] at hsw
        rw [siglip_block_split vc ds (str "MultiHeadDotProductAttention_0/query") (visPropStr pr) arr hds'] at hsw
        unfold siglipBlockDispatch at hsw
        rw [if_neg (by decide : ¬ str "/LayerNorm" <+: '/' :: str "MultiHeadDotProductAttention_0/query")] at hsw
        rw [if_neg (by decide : ¬ str "/MlpBlock_0" <+: '/' :: str "MultiHeadDotProductAttention_0/query")] at hsw
        rw [if_pos (by decide : str "/MultiHeadDotProductAttention_0" <+: '/' :: str "MultiHeadDotProductAttention_0/query")] at hsw
        rw [siglipAttnDispatch_spec] at hsw
        rw [show visAttnProj ('/' :: str "MultiHeadDotProductAttention_0/query") = some (str ".self_attn.q_proj") from by decide] at hsw
        dsimp only at hsw
        dsimp only [visPartPropOk] at hok
        rcases hok with hpr | hpr
        all_goals subst hpr
        all_goals dsimp only [visPropStr] at hsw
        · rw [if_neg (by decide), if_pos rfl] at hsw
          cases hrs : NDArray.reshapeNeg1 vc.hidden_size arr with
          | none =>
            rw [hrs] at hsw
            simp [liftShape, except_bind_err] at hsw
          | some t =>
            rw [hrs] at hsw
            simp only [liftShape, except_bind_ok] at hsw
            injection hsw with h'
            subst h'
            rw [hmap]
            simp [leafKeys, visBlockTail, visBlockSection, visWB, List.append_assoc]
        · rw [if_pos rfl] at hsw
          cases hrs : NDArray.reshapeNeg1 vc.hidden_size arr with
          | none =>
            rw [hrs] at hsw
            simp [liftShape, except_bind_err] at hsw
          | some t =>
            rw [hrs] at hsw
            simp only [liftShape, except_bind_ok] at hsw
            injection hsw with h'
            subst h'
            rw [hmap]
            simp [leafKeys, visBlockTail, visBlockSection, visWB, List.append_assoc]
      | attnValue =>
        dsimp only [visPartStr] at hsw
        rw [show str "/MultiHeadDotProductAttention_0/value" = '/' :: str "MultiHeadDotProductAttention_0/value" from rfl] at hsw
        rw [siglip_block_split vc ds (str "MultiHeadDotProductAttention_0/value") (visPropStr pr) arr hds'] at hsw
        unfold siglipBlockDispatch at hsw
        rw [if_neg (by decide : ¬ str "/LayerNorm" <+: '/' :: str "MultiHeadDotProductAttention_0/value")] at hsw
        rw [if_neg (by decide : ¬ str "/MlpBlock_0" <+: '/' :: str "MultiHeadDotProductAttention_0/value")] at hsw
        rw [if_pos (by decide : str "/MultiHeadDotProductAttention_0" <+: '/' :: str "MultiHeadDotProductAttention_0/value")] at hsw
        rw [siglipAttnDispatch_spec] at hsw
        rw [show visAttnProj ('/' :: str "MultiHeadDotProductAttention_0/value") = some (str ".self_attn.v_proj") from by decide] at hsw
        dsimp only at hsw
        dsimp only [visPartPropOk] at hok
        rcases hok with hpr | hpr
        all_goals subst hpr
        all_goals dsimp only [visPropStr] at hsw
        · rw [if_neg (by decide), if_pos rfl] at hsw
          cases hrs : NDArray.reshapeNeg1 vc.hidden_size arr with
          | none =>
            rw [hrs] at hsw
            simp [liftShape, except_bind_err] at hsw
          | some t =>
            rw [hrs] at hsw
            simp only [liftShape, except_bind_ok] at hsw
            injection hsw with h'
            subst h'
            rw [hmap]
            simp [leafKeys, visBlockTail, visBlockSection, visWB, List.append_assoc]
        · rw [if_pos rfl] at hsw
          cases hrs : NDArray.reshapeNeg1 vc.hidden_size arr with
          | none =>
            rw [hrs] at hsw
            simp [liftShape, except_bind_err] at hsw
          | some t =>
            rw [hrs] at hsw
            simp only [liftShape, except_bind_ok] at hsw
            injection hsw with h'
            subst h'
            rw [hmap]
            simp [leafKeys, visBlockTail, visBlockSection, visWB, List.append_assoc]
  | visEncNorm pr =>
    cases hv : config.vision_config with
    | none =>
      have hl := convertLeaf_vis_none hv (by dsimp only [SourceShape.path]; decide) h
      subst hl
      rfl
    | some vc =>
      obtain ⟨pw, hsw, hmap⟩ :=
        convertLeaf_vis hv (by dsimp only [SourceShape.path]; decide) h
      dsimp only [SourceShape.path, SourceShape.prop] at hsw
      unfold _convert_siglip_weight at hsw
      rw [if_neg (by decide), if_neg (by decide), if_neg (by decide), if_pos rfl] at hsw
      rcases hwf with hsc | hb
      · subst hsc
        dsimp only [visPropStr] at hsw
        rw [if_pos rfl] at hsw
        injection hsw with h'
        subst h'
        rw [hmap]
        rfl
      · subst hb
        dsimp only [visPropStr] at hsw
        rw [if_neg (by decide), if_pos rfl] at hsw
        injection hsw with h'
        subst h'
        rw [hmap]
        rfl

end Gemma3

namespace Gemma3

theorem no_common_of_prefixes {p₁ p₂ x y q : Str} (h₁ : q = p₁ ++ x) (h₂ : q = p₂ ++ y)
    (hlen : p₁.length ≤ p₂.length) (hnp : ¬ p₁ <+: p₂) : False := by
  have hp₁ : p₁ <+: q := by rw [h₁]; exact List.prefix_append _ _
  have hp₂ : p₂ <+: q := by rw [h₂]; exact List.prefix_append _ _
  exact hnp (List.prefix_of_prefix_length_le hp₁ hp₂ hlen)

theorem const_ne_fam {c P ds t : Str} (hnp : ¬ P <+: c) (h : c = (P ++ ds) ++ t) : False :=
  hnp (by rw [h, List.append_assoc]; exact List.prefix_append _ _)

theorem fam_eq_fam {P ds₁ t₁ ds₂ t₂ : Str} (h : (P ++ ds₁) ++ t₁ = (P ++ ds₂) ++ t₂)
    (hd₁ : ∀ c ∈ ds₁, c.isDigit) (hd₂ : ∀ c ∈ ds₂, c.isDigit)
    (ht₁ : t₁.head? = some '.') (ht₂ : t₂.head? = some '.') :
    ds₁ = ds₂ ∧ t₁ = t₂ := by
  rw [List.append_assoc, List.append_assoc] at h
  have h' := List.append_cancel_left h
  refine digit_append_inj h' hd₁ hd₂ ?_ ?_
  · intro c hc
    rw [ht₁] at hc
    injection hc with hc
    rw [← hc]
    decide
  · intro c hc
    rw [ht₂] at hc
    injection hc with hc
    rw [← hc]
    decide

theorem layerTails_head : ∀ k : LayerLeafKind, ∀ t ∈ layerTails k, t.head? = some '.' := by
  decide

theorem layerTails_inj : ∀ k₁ k₂ : LayerLeafKind, ∀ t₁ ∈ layerTails k₁, ∀ t₂ ∈ layerTails k₂,
    t₁ = t₂ → k₁ = k₂ := by decide

theorem visBlockTail_head : ∀ p : VisBlockPart, ∀ pr : VisProp,
    (visBlockTail p pr).head? = some '.' := by decide

theorem visBlockTail_inj : ∀ p₁ pr₁ p₂ pr₂, visPartPropOk p₁ pr₁ → visPartPropOk p₂ pr₂ →
    visBlockTail p₁ pr₁ = visBlockTail p₂ pr₂ → p₁ = p₂ ∧ pr₁ = pr₂ := by decide

theorem mem_layer_true {ds : Str} {k : LayerLeafKind} {q : Str}
    (hq : q ∈ leafKeys true (.layer ds k)) :
    ∃ t ∈ layerTails k, q = (str "language_model.model.layers." ++ ds) ++ t := by
  simp only [leafKeys, if_true] at hq
  obtain ⟨t, ht, rfl⟩ := List.mem_map.mp hq
  exact ⟨t, ht, rfl⟩

end Gemma3

namespace Gemma3

theorem mem_pair {a b q : Str} (hq : q ∈ [a, b]) : q = a ∨ q = b := by simpa using hq

theorem mem_single {a q : Str} (hq : q ∈ [a]) : q = a := by simpa using hq

theorem mem_layer_false {ds : Str} {k : LayerLeafKind} {q : Str}
    (hq : q ∈ leafKeys false (.layer ds k)) :
    ∃ t ∈ layerTails k, q = (str "model.layers." ++ ds) ++ t := by
  simp only [leafKeys, Bool.false_eq_true, if_false] at hq
  obtain ⟨t, ht, rfl⟩ := List.mem_map.mp hq
  exact ⟨t, ht, rfl⟩

theorem mem_visBlock_true {ds : Str} {part : VisBlockPart} {pr : VisProp} {q : Str}
    (hq : q ∈ leafKeys true (.visBlock ds part pr)) :
    q = (str "vision_model.vision_model.encoder.layers." ++ ds) ++ visBlockTail part pr := by
  simpa [leafKeys] using hq

theorem fam_ne_fam {P₁ P₂ ds₁ t₁ ds₂ t₂ q : Str} (h₁ : q = (P₁ ++ ds₁) ++ t₁)
    (h₂ : q = (P₂ ++ ds₂) ++ t₂) (hlen : P₁.length ≤ P₂.length) (hnp : ¬ P₁ <+: P₂) :
    False := by
  rw [List.append_assoc] at h₁
  rw [List.append_assoc] at h₂
  exact no_common_of_prefixes h₁ h₂ hlen hnp

theorem leafKeys_disjoint {vis : Bool} {d₁ d₂ : SourceShape} (hw1 : d₁.WF)
    (hw2 : d₂.WF) (hne : ¬ (d₁.path = d₂.path ∧ d₁.prop = d₂.prop)) {q : Str}
    (hq₁ : q ∈ leafKeys vis d₁) (hq₂ : q ∈ leafKeys vis d₂) : False := by
  cases vis with
  | false =>
    cases d₁ with
    | embedInput =>
      cases d₂ with
      | embedInput =>
        exact hne ⟨rfl, rfl⟩
      | embedMmExtra =>
        simp [leafKeys] at hq₂
      | embedMmOut =>
        simp [leafKeys] at hq₂
      | mmProj =>
        simp [leafKeys] at hq₂
      | mmNorm =>
        simp [leafKeys] at hq₂
      | finalNorm =>
        rcases mem_pair hq₁ with rfl | rfl <;>
          exact absurd hq₂ (by decide)
      | layer ds2 k2 =>
        rcases mem_pair hq₁ with rfl | rfl <;>
          obtain ⟨t2, ht2, hq2e⟩ := mem_layer_false hq₂ <;>
          exact const_ne_fam (by decide) hq2e
      | visBase =>
        simp [leafKeys] at hq₂
      | visEmbed pr2 =>
        simp [leafKeys] at hq₂
      | visBlock ds2 part2 pr2 =>
        simp [leafKeys] at hq₂
      | visEncNorm pr2 =>
        simp [leafKeys] at hq₂
    | embedMmExtra =>
      cases d₂ with
      | embedInput =>
        simp [leafKeys] at hq₁
      | embedMmExtra =>
        simp [leafKeys] at hq₁
      | embedMmOut =>
        simp [leafKeys] at hq₁
      | mmProj =>
        simp [leafKeys] at hq₁
      | mmNorm =>
        simp [leafKeys] at hq₁
      | finalNorm =>
        simp [leafKeys] at hq₁
      | layer ds2 k2 =>
        simp [leafKeys] at hq₁
      | visBase =>
        simp [leafKeys] at hq₁
      | visEmbed pr2 =>
        simp [leafKeys] at hq₁
      | visBlock ds2 part2 pr2 =>
        simp [leafKeys] at hq₁
      | visEncNorm pr2 =>
        simp [leafKeys] at hq₁
    | embedMmOut =>
      cases d₂ with
      | embedInput =>
        simp [leafKeys] at hq₁
      | embedMmExtra =>
        simp [leafKeys] at hq₁
      | embedMmOut =>
        simp [leafKeys] at hq₁
      | mmProj =>
        simp [leafKeys] at hq₁
      | mmNorm =>
        simp [leafKeys] at hq₁
      | finalNorm =>
        simp [leafKeys] at hq₁
      | layer ds2 k2 =>
        simp [leafKeys] at hq₁
      | visBase =>
        simp [leafKeys] at hq₁
      | visEmbed pr2 =>
        simp [leafKeys] at hq₁
      | visBlock ds2 part2 pr2 =>
        simp [leafKeys] at hq₁
      | visEncNorm pr2 =>
        simp [leafKeys] at hq₁
    | mmProj =>
      cases d₂ with
      | embedInput =>
        simp [leafKeys] at hq₁
      | embedMmExtra =>
        simp [leafKeys] at hq₁
      | embedMmOut =>
        simp [leafKeys] at hq₁
      | mmProj =>
        simp [leafKeys] at hq₁
      | mmNorm =>
        simp [leafKeys] at hq₁
      | finalNorm =>
        simp [leafKeys] at hq₁
      | layer ds2 k2 =>
        simp [leafKeys] at hq₁
      | visBase =>
        simp [leafKeys] at hq₁
      | visEmbed pr2 =>
        simp [leafKeys] at hq₁
      | visBlock ds2 part2 pr2 =>
        simp [leafKeys] at hq₁
      | visEncNorm pr2 =>
        simp [leafKeys] at hq₁
    | mmNorm =>
      cases d₂ with
      | embedInput =>
        simp [leafKeys] at hq₁
      | embedMmExtra =>
        simp [leafKeys] at hq₁
      | embedMmOut =>
        simp [leafKeys] at hq₁
      | mmProj =>
        simp [leafKeys] at hq₁
      | mmNorm =>
        simp [leafKeys] at hq₁
      | finalNorm =>
        simp [leafKeys] at hq₁
      | layer ds2 k2 =>
        simp [leafKeys] at hq₁
      | visBase =>
        simp [leafKeys] at hq₁
      | visEmbed pr2 =>
        simp [leafKeys] at hq₁
      | visBlock ds2 part2 pr2 =>
        simp [leafKeys] at hq₁
      | visEncNorm pr2 =>
        simp [leafKeys] at hq₁
    | finalNorm =>
      cases d₂ with
      | embedInput =>
        rcases mem_single hq₁ with rfl <;>
          exact absurd hq₂ (by decide)
      | embedMmExtra =>
        simp [leafKeys] at hq₂
      | embedMmOut =>
        simp [leafKeys] at hq₂
      | mmProj =>
        simp [leafKeys] at hq₂
      | mmNorm =>
        simp [leafKeys] at hq₂
      | finalNorm =>
        exact hne ⟨rfl, rfl⟩
      | layer ds2 k2 =>
        rcases mem_single hq₁ with rfl <;>
          obtain ⟨t2, ht2, hq2e⟩ := mem_layer_false hq₂ <;>
          exact const_ne_fam (by decide) hq2e
      | visBase =>
        simp [leafKeys] at hq₂
      | visEmbed pr2 =>
        simp [leafKeys] at hq₂
      | visBlock ds2 part2 pr2 =>
        simp [leafKeys] at hq₂
      | visEncNorm pr2 =>
        simp [leafKeys] at hq₂
    | layer ds1 k1 =>
      cases d₂ with
      | embedInput =>
        obtain ⟨t1, ht1, hq1e⟩ := mem_layer_false hq₁ <;>
          rcases mem_pair hq₂ with rfl | rfl <;>
          exact const_ne_fam (by decide) hq1e
      | embedMmExtra =>
        simp [leafKeys] at hq₂
      | embedMmOut =>
        simp [leafKeys] at hq₂
      | mmProj =>
        simp [leafKeys] at hq₂
      | mmNorm =>
        simp [leafKeys] at hq₂
      | finalNorm =>
        obtain ⟨t1, ht1, hq1e⟩ := mem_layer_false hq₁ <;>
          rcases mem_single hq₂ with rfl <;>
          exact const_ne_fam (by decide) hq1e
      | layer ds2 k2 =>
        obtain ⟨t1, ht1, hq1e⟩ := mem_layer_false hq₁
        obtain ⟨t2, ht2, hq2e⟩ := mem_layer_false hq₂
        obtain ⟨hds, hts⟩ := fam_eq_fam (hq1e.symm.trans hq2e) hw1 hw2
          (layerTails_head _ _ ht1) (layerTails_head _ _ ht2)
        have hk := layerTails_inj _ _ _ ht1 _ ht2 hts
        exact hne ⟨by rw [hds, hk], rfl⟩
      | visBase =>
        simp [leafKeys] at hq₂
      | visEmbed pr2 =>
        simp [leafKeys] at hq₂
      | visBlock ds2 part2 pr2 =>
        simp [leafKeys] at hq₂
      | visEncNorm pr2 =>
        simp [leafKeys] at hq₂
    | visBase =>
      cases d₂ with
      | embedInput =>
        simp [leafKeys] at hq₁
      | embedMmExtra =>
        simp [leafKeys] at hq₁
      | embedMmOut =>
        simp [leafKeys] at hq₁
      | mmProj =>
        simp [leafKeys] at hq₁
      | mmNorm =>
        simp [leafKeys] at hq₁
      | finalNorm =>
        simp [leafKeys] at hq₁
      | layer ds2 k2 =>
        simp [leafKeys] at hq₁
      | visBase =>
        simp [leafKeys] at hq₁
      | visEmbed pr2 =>
        simp [leafKeys] at hq₁
      | visBlock ds2 part2 pr2 =>
        simp [leafKeys] at hq₁
      | visEncNorm pr2 =>
        simp [leafKeys] at hq₁
    | visEmbed pr1 =>
      cases d₂ with
      | embedInput =>
        simp [leafKeys] at hq₁
      | embedMmExtra =>
        simp [leafKeys] at hq₁
      | embedMmOut =>
        simp [leafKeys] at hq₁
      | mmProj =>
        simp [leafKeys] at hq₁
      | mmNorm =>
        simp [leafKeys] at hq₁
      | finalNorm =>
        simp [leafKeys] at hq₁
      | layer ds2 k2 =>
        simp [leafKeys] at hq₁
      | visBase =>
        simp [leafKeys] at hq₁
      | visEmbed pr2 =>
        simp [leafKeys] at hq₁
      | visBlock ds2 part2 pr2 =>
        simp [leafKeys] at hq₁
      | visEncNorm pr2 =>
        simp [leafKeys] at hq₁
    | visBlock ds1 part1 pr1 =>
      cases d₂ with
      | embedInput =>
        simp [leafKeys] at hq₁
      | embedMmExtra =>
        simp [leafKeys] at hq₁
      | embedMmOut =>
        simp [leafKeys] at hq₁
      | mmProj =>
        simp [leafKeys] at hq₁
      | mmNorm =>
        simp [leafKeys] at hq₁
      | finalNorm =>
        simp [leafKeys] at hq₁
      | layer ds2 k2 =>
        simp [leafKeys] at hq₁
      | visBase =>
        simp [leafKeys] at hq₁
      | visEmbed pr2 =>
        simp [leafKeys] at hq₁
      | visBlock ds2 part2 pr2 =>
        simp [leafKeys] at hq₁
      | visEncNorm pr2 =>
        simp [leafKeys] at hq₁
    | visEncNorm pr1 =>
      cases d₂ with
      | embedInput =>
        simp [leafKeys] at hq₁
      | embedMmExtra =>
        simp [leafKeys] at hq₁
      | embedMmOut =>
        simp [leafKeys] at hq₁
      | mmProj =>
        simp [leafKeys] at hq₁
      | mmNorm =>
        simp [leafKeys] at hq₁
      | finalNorm =>
        simp [leafKeys] at hq₁
      | layer ds2 k2 =>
        simp [leafKeys] at hq₁
      | visBase =>
        simp [leafKeys] at hq₁
      | visEmbed pr2 =>
        simp [leafKeys] at hq₁
      | visBlock ds2 part2 pr2 =>
        simp [leafKeys] at hq₁
      | visEncNorm pr2 =>
        simp [leafKeys] at hq₁
  | true =>
    cases d₁ with
    | embedInput =>
      cases d₂ with
      | embedInput =>
        exact hne ⟨rfl, rfl⟩
      | embedMmExtra =>
        simp [leafKeys] at hq₂
      | embedMmOut =>
        simp [leafKeys] at hq₂
      | mmProj =>
        simp [leafKeys] at hq₂
      | mmNorm =>
        simp [leafKeys] at hq₂
      | finalNorm =>
        rcases mem_pair hq₁ with rfl | rfl <;>
          exact absurd hq₂ (by decide)
      | layer ds2 k2 =>
        rcases mem_pair hq₁ with rfl | rfl <;>
          obtain ⟨t2, ht2, hq2e⟩ := mem_layer_true hq₂ <;>
          exact const_ne_fam (by decide) hq2e
      | visBase =>
        rcases mem_pair hq₁ with rfl | rfl <;>
          exact absurd hq₂ (by decide)
      | visEmbed pr2 =>
        rcases show pr2 = VisProp.kernel ∨ pr2 = VisProp.bias from hw2 with rfl | rfl <;>
          rcases mem_pair hq₁ with rfl | rfl <;>
          exact absurd hq₂ (by decide)
      | visBlock ds2 part2 pr2 =>
        rcases mem_pair hq₁ with rfl | rfl <;>
          have hq2e := mem_visBlock_true hq₂ <;>
          exact const_ne_fam (by decide) hq2e
      | visEncNorm pr2 =>
        rcases show pr2 = VisProp.scale ∨ pr2 = VisProp.bias from hw2 with rfl | rfl <;>
          rcases mem_pair hq₁ with rfl | rfl <;>
          exact absurd hq₂ (by decide)
    | embedMmExtra =>
      cases d₂ with
      | embedInput =>
        simp [leafKeys] at hq₁
      | embedMmExtra =>
        simp [leafKeys] at hq₁
      | embedMmOut =>
        simp [leafKeys] at hq₁
      | mmProj =>
        simp [leafKeys] at hq₁
      | mmNorm =>
        simp [leafKeys] at hq₁
      | finalNorm =>
        simp [leafKeys] at hq₁
      | layer ds2 k2 =>
        simp [leafKeys] at hq₁
      | visBase =>
        simp [leafKeys] at hq₁
      | visEmbed pr2 =>
        simp [leafKeys] at hq₁
      | visBlock ds2 part2 pr2 =>
        simp [leafKeys] at hq₁
      | visEncNorm pr2 =>
        simp [leafKeys] at hq₁
    | embedMmOut =>
      cases d₂ with
      | embedInput =>
        simp [leafKeys] at hq₁
      | embedMmExtra =>
        simp [leafKeys] at hq₁
      | embedMmOut =>
        simp [leafKeys] at hq₁
      | mmProj =>
        simp [leafKeys] at hq₁
      | mmNorm =>
        simp [leafKeys] at hq₁
      | finalNorm =>
        simp [leafKeys] at hq₁
      | layer ds2 k2 =>
        simp [leafKeys] at hq₁
      | visBase =>
        simp [leafKeys] at hq₁
      | visEmbed pr2 =>
        simp [leafKeys] at hq₁
      | visBlock ds2 part2 pr2 =>
        simp [leafKeys] at hq₁
      | visEncNorm pr2 =>
        simp [leafKeys] at hq₁
    | mmProj =>
      cases d₂ with
      | embedInput =>
        simp [leafKeys] at hq₁
      | embedMmExtra =>
        simp [leafKeys] at hq₁
      | embedMmOut =>
        simp [leafKeys] at hq₁
      | mmProj =>
        simp [leafKeys] at hq₁
      | mmNorm =>
        simp [leafKeys] at hq₁
      | finalNorm =>
        simp [leafKeys] at hq₁
      | layer ds2 k2 =>
        simp [leafKeys] at hq₁
      | visBase =>
        simp [leafKeys] at hq₁
      | visEmbed pr2 =>
        simp [leafKeys] at hq₁
      | visBlock ds2 part2 pr2 =>
        simp [leafKeys] at hq₁
      | visEncNorm pr2 =>
        simp [leafKeys] at hq₁
    | mmNorm =>
      cases d₂ with
      | embedInput =>
        simp [leafKeys] at hq₁
      | embedMmExtra =>
        simp [leafKeys] at hq₁
      | embedMmOut =>
        simp [leafKeys] at hq₁
      | mmProj =>
        simp [leafKeys] at hq₁
      | mmNorm =>
        simp [leafKeys] at hq₁
      | finalNorm =>
        simp [leafKeys] at hq₁
      | layer ds2 k2 =>
        simp [leafKeys] at hq₁
      | visBase =>
        simp [leafKeys] at hq₁
      | visEmbed pr2 =>
        simp [leafKeys] at hq₁
      | visBlock ds2 part2 pr2 =>
        simp [leafKeys] at hq₁
      | visEncNorm pr2 =>
        simp [leafKeys] at hq₁
    | finalNorm =>
      cases d₂ with
      | embedInput =>
        rcases mem_single hq₁ with rfl <;>
          exact absurd hq₂ (by decide)
      | embedMmExtra =>
        simp [leafKeys] at hq₂
      | embedMmOut =>
        simp [leafKeys] at hq₂
      | mmProj =>
        simp [leafKeys] at hq₂
      | mmNorm =>
        simp [leafKeys] at hq₂
      | finalNorm =>
        exact hne ⟨rfl, rfl⟩
      | layer ds2 k2 =>
        rcases mem_single hq₁ with rfl <;>
          obtain ⟨t2, ht2, hq2e⟩ := mem_layer_true hq₂ <;>
          exact const_ne_fam (by decide) hq2e
      | visBase =>
        rcases mem_single hq₁ with rfl <;>
          exact absurd hq₂ (by decide)
      | visEmbed pr2 =>
        rcases show pr2 = VisProp.kernel ∨ pr2 = VisProp.bias from hw2 with rfl | rfl <;>
          rcases mem_single hq₁ with rfl <;>
          exact absurd hq₂ (by decide)
      | visBlock ds2 part2 pr2 =>
        rcases mem_single hq₁ with rfl <;>
          have hq2e := mem_visBlock_true hq₂ <;>
          exact const_ne_fam (by decide) hq2e
      | visEncNorm pr2 =>
        rcases show pr2 = VisProp.scale ∨ pr2 = VisProp.bias from hw2 with rfl | rfl <;>
          rcases mem_single hq₁ with rfl <;>
          exact absurd hq₂ (by decide)
    | layer ds1 k1 =>
      cases d₂ with
      | embedInput =>
        obtain ⟨t1, ht1, hq1e⟩ := mem_layer_true hq₁ <;>
          rcases mem_pair hq₂ with rfl | rfl <;>
          exact const_ne_fam (by decide) hq1e
      | embedMmExtra =>
        simp [leafKeys] at hq₂
      | embedMmOut =>
        simp [leafKeys] at hq₂
      | mmProj =>
        simp [leafKeys] at hq₂
      | mmNorm =>
        simp [leafKeys] at hq₂
      | finalNorm =>
        obtain ⟨t1, ht1, hq1e⟩ := mem_layer_true hq₁ <;>
          rcases mem_single hq₂ with rfl <;>
          exact const_ne_fam (by decide) hq1e
      | layer ds2 k2 =>
        obtain ⟨t1, ht1, hq1e⟩ := mem_layer_true hq₁
        obtain ⟨t2, ht2, hq2e⟩ := mem_layer_true hq₂
        obtain ⟨hds, hts⟩ := fam_eq_fam (hq1e.symm.trans hq2e) hw1 hw2
          (layerTails_head _ _ ht1) (layerTails_head _ _ ht2)
        have hk := layerTails_inj _ _ _ ht1 _ ht2 hts
        exact hne ⟨by rw [hds, hk], rfl⟩
      | visBase =>
        obtain ⟨t1, ht1, hq1e⟩ := mem_layer_true hq₁ <;>
          rcases mem_single hq₂ with rfl <;>
          exact const_ne_fam (by decide) hq1e
      | visEmbed pr2 =>
        obtain ⟨t1, ht1, hq1e⟩ := mem_layer_true hq₁ <;>
          rcases show pr2 = VisProp.kernel ∨ pr2 = VisProp.bias from hw2 with rfl | rfl <;>
          rcases mem_single hq₂ with rfl <;>
          exact const_ne_fam (by decide) hq1e
      | visBlock ds2 part2 pr2 =>
        obtain ⟨t1, ht1, hq1e⟩ := mem_layer_true hq₁
        have hq2e := mem_visBlock_true hq₂
        exact fam_ne_fam hq1e hq2e (by decide) (by decide)
      | visEncNorm pr2 =>
        obtain ⟨t1, ht1, hq1e⟩ := mem_layer_true hq₁ <;>
          rcases show pr2 = VisProp.scale ∨ pr2 = VisProp.bias from hw2 with rfl | rfl <;>
          rcases mem_single hq₂ with rfl <;>
          exact const_ne_fam (by decide) hq1e
    | visBase =>
      cases d₂ with
      | embedInput =>
        rcases mem_single hq₁ with rfl <;>
          exact absurd hq₂ (by decide)
      | embedMmExtra =>
        simp [leafKeys] at hq₂
      | embedMmOut =>
        simp [leafKeys] at hq₂
      | mmProj =>
        simp [leafKeys] at hq₂
      | mmNorm =>
        simp [leafKeys] at hq₂
      | finalNorm =>
        rcases mem_single hq₁ with rfl <;>
          exact absurd hq₂ (by decide)
      | layer ds2 k2 =>
        rcases mem_single hq₁ with rfl <;>
          obtain ⟨t2, ht2, hq2e⟩ := mem_layer_true hq₂ <;>
          exact const_ne_fam (by decide) hq2e
      | visBase =>
        exact hne ⟨rfl, rfl⟩
      | visEmbed pr2 =>
        rcases show pr2 = VisProp.kernel ∨ pr2 = VisProp.bias from hw2 with rfl | rfl <;>
          rcases mem_single hq₁ with rfl <;>
          exact absurd hq₂ (by decide)
      | visBlock ds2 part2 pr2 =>
        rcases mem_single hq₁ with rfl <;>
          have hq2e := mem_visBlock_true hq₂ <;>
          exact const_ne_fam (by decide) hq2e
      | visEncNorm pr2 =>
        rcases show pr2 = VisProp.scale ∨ pr2 = VisProp.bias from hw2 with rfl | rfl <;>
          rcases mem_single hq₁ with rfl <;>
          exact absurd hq₂ (by decide)
    | visEmbed pr1 =>
      cases d₂ with
      | embedInput =>
        rcases show pr1 = VisProp.kernel ∨ pr1 = VisProp.bias from hw1 with rfl | rfl <;>
          rcases mem_single hq₁ with rfl <;>
          exact absurd hq₂ (by decide)
      | embedMmExtra =>
        simp [leafKeys] at hq₂
      | embedMmOut =>
        simp [leafKeys] at hq₂
      | mmProj =>
        simp [leafKeys] at hq₂
      | mmNorm =>
        simp [leafKeys] at hq₂
      | finalNorm =>
        rcases show pr1 = VisProp.kernel ∨ pr1 = VisProp.bias from hw1 with rfl | rfl <;>
          rcases mem_single hq₁ with rfl <;>
          exact absurd hq₂ (by decide)
      | layer ds2 k2 =>
        rcases show pr1 = VisProp.kernel ∨ pr1 = VisProp.bias from hw1 with rfl | rfl <;>
          rcases mem_single hq₁ with rfl <;>
          obtain ⟨t2, ht2, hq2e⟩ := mem_layer_true hq₂ <;>
          exact const_ne_fam (by decide) hq2e
      | visBase =>
        rcases show pr1 = VisProp.kernel ∨ pr1 = VisProp.bias from hw1 with rfl | rfl <;>
          rcases mem_single hq₁ with rfl <;>
          exact absurd hq₂ (by decide)
      | visEmbed pr2 =>
        rcases show pr1 = VisProp.kernel ∨ pr1 = VisProp.bias from hw1 with rfl | rfl <;> rcases show pr2 = VisProp.kernel ∨ pr2 = VisProp.bias from hw2 with rfl | rfl
        · exact hne ⟨rfl, rfl⟩
        · exact absurd ((mem_single hq₁).symm.trans (mem_single hq₂)) (by decide)
        · exact absurd ((mem_single hq₁).symm.trans (mem_single hq₂)) (by decide)
        · exact hne ⟨rfl, rfl⟩
      | visBlock ds2 part2 pr2 =>
        rcases show pr1 = VisProp.kernel ∨ pr1 = VisProp.bias from hw1 with rfl | rfl <;>
          rcases mem_single hq₁ with rfl <;>
          have hq2e := mem_visBlock_true hq₂ <;>
          exact const_ne_fam (by decide) hq2e
      | visEncNorm pr2 =>
        rcases show pr1 = VisProp.kernel ∨ pr1 = VisProp.bias from hw1 with rfl | rfl <;>
          rcases show pr2 = VisProp.scale ∨ pr2 = VisProp.bias from hw2 with rfl | rfl <;>
          rcases mem_single hq₁ with rfl <;>
          exact absurd hq₂ (by decide)
    | visBlock ds1 part1 pr1 =>
      cases d₂ with
      | embedInput =>
        have hq1e := mem_visBlock_true hq₁ <;>
          rcases mem_pair hq₂ with rfl | rfl <;>
          exact const_ne_fam (by decide) hq1e
      | embedMmExtra =>
        simp [leafKeys] at hq₂
      | embedMmOut =>
        simp [leafKeys] at hq₂
      | mmProj =>
        simp [leafKeys] at hq₂
      | mmNorm =>
        simp [leafKeys] at hq₂
      | finalNorm =>
        have hq1e := mem_visBlock_true hq₁ <;>
          rcases mem_single hq₂ with rfl <;>
          exact const_ne_fam (by decide) hq1e
      | layer ds2 k2 =>
        have hq1e := mem_visBlock_true hq₁
        obtain ⟨t2, ht2, hq2e⟩ := mem_layer_true hq₂
        exact fam_ne_fam hq2e hq1e (by decide) (by decide)
      | visBase =>
        have hq1e := mem_visBlock_true hq₁ <;>
          rcases mem_single hq₂ with rfl <;>
          exact const_ne_fam (by decide) hq1e
      | visEmbed pr2 =>
        have hq1e := mem_visBlock_true hq₁ <;>
          rcases show pr2 = VisProp.kernel ∨ pr2 = VisProp.bias from hw2 with rfl | rfl <;>
          rcases mem_single hq₂ with rfl <;>
          exact const_ne_fam (by decide) hq1e
      | visBlock ds2 part2 pr2 =>
        obtain ⟨hd1, hp1⟩ := hw1
        obtain ⟨hd2, hp2⟩ := hw2
        have hq1e := mem_visBlock_true hq₁
        have hq2e := mem_visBlock_true hq₂
        obtain ⟨hds, hts⟩ := fam_eq_fam (hq1e.symm.trans hq2e) hd1 hd2
          (visBlockTail_head _ _) (visBlockTail_head _ _)
        obtain ⟨hpp, hprr⟩ := visBlockTail_inj _ _ _ _ hp1 hp2 hts
        subst hds; subst hpp; subst hprr; exact hne ⟨rfl, rfl⟩
      | visEncNorm pr2 =>
        have hq1e := mem_visBlock_true hq₁ <;>
          rcases show pr2 = VisProp.scale ∨ pr2 = VisProp.bias from hw2 with rfl | rfl <;>
          rcases mem_single hq₂ with rfl <;>
          exact const_ne_fam (by decide) hq1e
    | visEncNorm pr1 =>
      cases d₂ with
      | embedInput =>
        rcases show pr1 = VisProp.scale ∨ pr1 = VisProp.bias from hw1 with rfl | rfl <;>
          rcases mem_single hq₁ with rfl <;>
          exact absurd hq₂ (by decide)
      | embedMmExtra =>
        simp [leafKeys] at hq₂
      | embedMmOut =>
        simp [leafKeys] at hq₂
      | mmProj =>
        simp [leafKeys] at hq₂
      | mmNorm =>
        simp [leafKeys] at hq₂
      | finalNorm =>
        rcases show pr1 = VisProp.scale ∨ pr1 = VisProp.bias from hw1 with rfl | rfl <;>
          rcases mem_single hq₁ with rfl <;>
          exact absurd hq₂ (by decide)
      | layer ds2 k2 =>
        rcases show pr1 = VisProp.scale ∨ pr1 = VisProp.bias from hw1 with rfl | rfl <;>
          rcases mem_single hq₁ with rfl <;>
          obtain ⟨t2, ht2, hq2e⟩ := mem_layer_true hq₂ <;>
          exact const_ne_fam (by decide) hq2e
      | visBase =>
        rcases show pr1 = VisProp.scale ∨ pr1 = VisProp.bias from hw1 with rfl | rfl <;>
          rcases mem_single hq₁ with rfl <;>
          exact absurd hq₂ (by decide)
      | visEmbed pr2 =>
        rcases show pr1 = VisProp.scale ∨ pr1 = VisProp.bias from hw1 with rfl | rfl <;>
          rcases show pr2 = VisProp.kernel ∨ pr2 = VisProp.bias from hw2 with rfl | rfl <;>
          rcases mem_single hq₁ with rfl <;>
          exact absurd hq₂ (by decide)
      | visBlock ds2 part2 pr2 =>
        rcases show pr1 = VisProp.scale ∨ pr1 = VisProp.bias from hw1 with rfl | rfl <;>
          rcases mem_single hq₁ with rfl <;>
          have hq2e := mem_visBlock_true hq₂ <;>
          exact const_ne_fam (by decide) hq2e
      | visEncNorm pr2 =>
        rcases show pr1 = VisProp.scale ∨ pr1 = VisProp.bias from hw1 with rfl | rfl <;> rcases show pr2 = VisProp.scale ∨ pr2 = VisProp.bias from hw2 with rfl | rfl
        · exact hne ⟨rfl, rfl⟩
        · exact absurd ((mem_single hq₁).symm.trans (mem_single hq₂)) (by decide)
        · exact absurd ((mem_single hq₁).symm.trans (mem_single hq₂)) (by decide)
        · exact hne ⟨rfl, rfl⟩

end Gemma3

namespace Gemma3

theorem layerTails_nodup : ∀ k : LayerLeafKind, (layerTails k).Nodup := by decide

theorem leafKeys_nodup (vis : Bool) (d : SourceShape) : (leafKeys vis d).Nodup := by
  cases d with
  | embedInput => cases vis <;> decide
  | embedMmExtra => cases vis <;> decide
  | embedMmOut => cases vis <;> decide
  | mmProj => cases vis <;> decide
  | mmNorm => cases vis <;> decide
  | finalNorm => cases vis <;> decide
  | layer ds k =>
    refine List.Nodup.map ?_ (layerTails_nodup k)
    intro t₁ t₂ h
    exact List.append_cancel_left h
  | visBase => cases vis <;> decide
  | visEmbed pr => cases vis <;> cases pr <;> decide
  | visBlock ds part pr => cases vis <;> simp [leafKeys]
  | visEncNorm pr => cases vis <;> cases pr <;> decide

theorem convertEmits_keys_mem {config : Gemma3Config} {dt : DType} :
    ∀ {l : List (SourceShape × NDArray)} {pairs : List (Str × NDArray)},
      (∀ p ∈ l, p.1.WF) →
      convertEmits config dt (l.map (fun p => p.1.mkLeaf p.2)) = .ok pairs →
      ∀ q ∈ pairs.map Prod.fst,
        ∃ p ∈ l, q ∈ leafKeys config.vision_config.isSome p.1 := by
  intro l
  induction l with
  | nil =>
    intro pairs _ h q hq
    have h' : (Except.ok ([] : List (Str × NDArray)) :
        Except ConvError (List (Str × NDArray))) = .ok pairs := h
    injection h' with h'
    rw [← h'] at hq
    exact absurd hq (List.not_mem_nil q)
  | cons hd tl ih =>
    intro pairs hwf h q hq
    rw [List.map_cons] at h
    have hstep : convertEmits config dt
        (hd.1.mkLeaf hd.2 :: tl.map (fun p => p.1.mkLeaf p.2)) =
        (convertLeaf config dt (hd.1.mkLeaf hd.2) >>= fun head =>
          convertEmits config dt (tl.map (fun p => p.1.mkLeaf p.2)) >>= fun tail =>
          Except.ok (head ++ tail)) := rfl
    rw [hstep] at h
    cases hh : convertLeaf config dt (hd.1.mkLeaf hd.2) with
    | error e =>
      rw [hh, except_bind_err] at h
      exact Except.noConfusion h
    | ok head =>
      rw [hh, except_bind_ok] at h
      cases ht : convertEmits config dt (tl.map (fun p => p.1.mkLeaf p.2)) with
      | error e =>
        rw [ht, except_bind_err] at h
        exact Except.noConfusion h
      | ok tail =>
        rw [ht, except_bind_ok] at h
        injection h with h
        rw [← h, List.map_append] at hq
        rcases List.mem_append.mp hq with hq' | hq'
        · rw [convertLeaf_keys (hwf hd (List.mem_cons_self _ _)) hh] at hq'
          exact ⟨hd, List.mem_cons_self _ _, hq'⟩
        · obtain ⟨p, hp, hmem⟩ :=
            ih (fun p hp => hwf p (List.mem_cons_of_mem _ hp)) ht q hq'
          exact ⟨p, List.mem_cons_of_mem _ hp, hmem⟩

theorem convertEmits_nodup {config : Gemma3Config} {dt : DType} :
    ∀ {l : List (SourceShape × NDArray)} {pairs : List (Str × NDArray)},
      (∀ p ∈ l, p.1.WF) →
      l.Pairwise (fun p r => ¬ (p.1.path = r.1.path ∧ p.1.prop = r.1.prop)) →
      convertEmits config dt (l.map (fun p => p.1.mkLeaf p.2)) = .ok pairs →
      (pairs.map Prod.fst).Nodup := by
  intro l
  induction l with
  | nil =>
    intro pairs _ _ h
    have h' : (Except.ok ([] : List (Str × NDArray)) :
        Except ConvError (List (Str × NDArray))) = .ok pairs := h
    injection h' with h'
    rw [← h']
    exact List.nodup_nil
  | cons hd tl ih =>
    intro pairs hwf huniq h
    rw [List.map_cons] at h
    have hstep : convertEmits config dt
        (hd.1.mkLeaf hd.2 :: tl.map (fun p => p.1.mkLeaf p.2)) =
        (convertLeaf config dt (hd.1.mkLeaf hd.2) >>= fun head =>
          convertEmits config dt (tl.map (fun p => p.1.mkLeaf p.2)) >>= fun tail =>
          Except.ok (head ++ tail)) := rfl
    rw [hstep] at h
    cases hh : convertLeaf config dt (hd.1.mkLeaf hd.2) with
    | error e =>
      rw [hh, except_bind_err] at h
      exact Except.noConfusion h
    | ok head =>
      rw [hh, except_bind_ok] at h
      cases ht : convertEmits config dt (tl.map (fun p => p.1.mkLeaf p.2)) with
      | error e =>
        rw [ht, except_bind_err] at h
        exact Except.noConfusion h
      | ok tail =>
        rw [ht, except_bind_ok] at h
        injection h with h
        rw [← h, List.map_append]
        rw [List.nodup_append]
        have hhd := hwf hd (List.mem_cons_self _ _)
        have hkeys := convertLeaf_keys hhd hh
        refine ⟨?_, ?_, ?_⟩
        · rw [hkeys]
          exact leafKeys_nodup _ _
        · exact ih (fun p hp => hwf p (List.mem_cons_of_mem _ hp)) huniq.of_cons ht
        · intro q hq₁ hq₂
          rw [hkeys] at hq₁
          obtain ⟨p, hp, hmem⟩ := convertEmits_keys_mem
            (fun p hp => hwf p (List.mem_cons_of_mem _ hp)) ht q hq₂
          have hne := (List.pairwise_cons.mp huniq).1 p hp
          exact leafKeys_disjoint hhd (hwf p (List.mem_cons_of_mem _ hp)) hne hq₁ hmem

theorem upsert_keys_mem :
    ∀ (m : List (Str × NDArray)) (k : Str) (v : NDArray) (q : Str),
      q ∈ (upsert m k v).map Prod.fst → q ∈ m.map Prod.fst ∨ q = k := by
  intro m
  induction m with
  | nil =>
    intro k v q hq
    simp only [upsert, List.map_cons, List.map_nil] at hq
    rcases List.mem_cons.mp hq with h | h
    · exact Or.inr h
    · exact absurd h (List.not_mem_nil q)
  | cons kv rest ih =>
    intro k v q hq
    obtain ⟨k', v'⟩ := kv
    rw [show upsert ((k', v') :: rest) k v =
        if k' = k then (k, v) :: rest else (k', v') :: upsert rest k v from rfl] at hq
    by_cases hk : k' = k
    · rw [if_pos hk] at hq
      rw [List.map_cons] at hq
      rcases List.mem_cons.mp hq with h | h
      · exact Or.inr h
      · exact Or.inl (by rw [List.map_cons]; exact List.mem_cons_of_mem _ h)
    · rw [if_neg hk] at hq
      rw [List.map_cons] at hq
      rcases List.mem_cons.mp hq with h | h
      · exact Or.inl (by rw [List.map_cons]; exact List.mem_cons.mpr (Or.inl h))
      · rcases ih k v q h with h' | h'
        · exact Or.inl (by rw [List.map_cons]; exact List.mem_cons_of_mem _ h')
        · exact Or.inr h'

theorem foldl_upsert_keys :
    ∀ (pairs m : List (Str × NDArray)) (q : Str),
      q ∈ (pairs.foldl (fun acc kv => upsert acc kv.1 kv.2) m).map Prod.fst →
      q ∈ m.map Prod.fst ∨ q ∈ pairs.map Prod.fst := by
  intro pairs
  induction pairs with
  | nil => intro m q hq; exact Or.inl hq
  | cons kv rest ih =>
    intro m q hq
    rw [List.foldl_cons] at hq
    rcases ih _ q hq with h | h
    · rcases upsert_keys_mem m kv.1 kv.2 q h with h' | h'
      · exact Or.inl h'
      · exact Or.inr (by rw [List.map_cons]; exact List.mem_cons.mpr (Or.inl h'))
    · exact Or.inr (by rw [List.map_cons]; exact List.mem_cons_of_mem _ h)

theorem convert_ok_elim {config : Gemma3Config} {dt : DType} {leaves : List Leaf}
    {m : List (Str × NDArray)} (h : convert config dt leaves = .ok m) :
    ∃ pairs, convertEmits config dt leaves = .ok pairs ∧
      m = pairs.foldl (fun acc kv => upsert acc kv.1 kv.2) [] := by
  unfold convert at h
  cases he : convertEmits config dt leaves with
  | error e =>
    rw [he] at h
    exact Except.noConfusion h
  | ok pairs =>
    rw [he] at h
    injection h with h
    exact ⟨pairs, rfl, h.symm⟩

theorem not_infix_of_not_mem {s l : Str} {c : Char} (hc : c ∈ s) (hl : c ∉ l) :
    ¬ s <:+: l := fun h => hl (h.subset hc)

theorem not_prefix_of_head_ne {c₁ c₂ : Char} {p q : Str} (h : c₁ ≠ c₂) :
    ¬ (c₁ :: p) <+: (c₂ :: q) := by
  rintro ⟨t, ht⟩
  rw [List.cons_append] at ht
  injection ht with h1 _
  exact h h1

theorem layerTails_no_S : ∀ k : LayerLeafKind, ∀ t ∈ layerTails k, 'S' ∉ t := by decide

theorem layer_key_no_S {ds t : Str} (hd : ∀ c ∈ ds, c.isDigit) (ht : 'S' ∉ t) :
    'S' ∉ (str "model.layers." ++ ds) ++ t := by
  intro hmem
  rcases List.mem_append.mp hmem with h | h
  · rcases List.mem_append.mp h with h' | h'
    · exact absurd h' (by decide)
    · exact absurd (hd _ h') (by decide)
  · exact ht h

theorem lm_not_prefix_layer (ds t : Str) :
    ¬ str "language_model." <+: (str "model.layers." ++ ds) ++ t := by
  have h : (str "model.layers." ++ ds) ++ t =
      'm' :: (str "odel.layers." ++ (ds ++ t)) := by
    rw [List.append_assoc]; rfl
  have h2 : str "language_model." = 'l' :: str "anguage_model." := rfl
  rw [h, h2]
  exact not_prefix_of_head_ne (by decide)

theorem leafKeys_false_clean {d : SourceShape} (hwf : d.WF) {q : Str}
    (hq : q ∈ leafKeys false d) :
    ¬ str "SigLiPFromPatches_" <:+: q ∧ ¬ str "language_model." <+: q := by
  cases d with
  | embedInput => rcases mem_pair hq with rfl | rfl <;> exact ⟨by decide, by decide⟩
  | embedMmExtra => exact absurd hq (List.not_mem_nil q)
  | embedMmOut => exact absurd hq (List.not_mem_nil q)
  | mmProj => exact absurd hq (List.not_mem_nil q)
  | mmNorm => exact absurd hq (List.not_mem_nil q)
  | finalNorm =>
    rcases mem_single hq with rfl
    exact ⟨by decide, by decide⟩
  | layer ds k =>
    obtain ⟨t, ht, rfl⟩ := mem_layer_false hq
    constructor
    · exact not_infix_of_not_mem (by decide) (layer_key_no_S hwf (layerTails_no_S k t ht))
    · exact lm_not_prefix_layer ds t
  | visBase => exact absurd hq (List.not_mem_nil q)
  | visEmbed pr => exact absurd hq (List.not_mem_nil q)
  | visBlock ds part pr => exact absurd hq (List.not_mem_nil q)
  | visEncNorm pr => exact absurd hq (List.not_mem_nil q)

end Gemma3

namespace Gemma3

/-- Claim C1 (amended): over canonical well-formed source trees whose
`(path, leaf-property)` pairs are pairwise distinct, and for both
configurations (vision component present and absent), a full run of
`convert` never emits two `(destination key, array)` pairs sharing the
same destination key, so no insertion into `hf_tree` overwrites an
earlier entry. -/
theorem claim_C1_key_uniqueness {config : Gemma3Config} {dt : DType}
    {srcs : List (SourceShape × NDArray)} {pairs : List (Str × NDArray)}
    (hwf : ∀ p ∈ srcs, p.1.WF)
    (huniq : (srcs.map (fun p => (p.1.path, p.1.prop))).Nodup)
    (h : convertEmits config dt (srcs.map (fun p => p.1.mkLeaf p.2)) = .ok pairs) :
    (pairs.map Prod.fst).Nodup := by
  refine convertEmits_nodup hwf ?_ h
  have hp := List.pairwise_map.mp huniq
  exact hp.imp (fun hne hc => hne (by rw [hc.1, hc.2]))

/-- Claim C1 counterexample: the literal claim fails — `final_norm` ignores
the leaf-property, so two source triples with distinct `(path, prop)` pairs
can emit the same destination key. -/
theorem claim_C1_counterexample :
    ∃ (config : Gemma3Config) (dt : DType) (leaves : List Leaf)
      (pairs : List (Str × NDArray)),
      (leaves.map (fun lf => (lf.path, lf.prop))).Nodup ∧
      convertEmits config dt leaves = .ok pairs ∧
      ¬ (pairs.map Prod.fst).Nodup := by
  refine ⟨⟨⟨1, 1, 1, 2⟩, none⟩, DType.bfloat16,
    [⟨_TRANSFORMER_FINAL_NORM, str "a", ⟨.float32, [1], [0]⟩⟩,
     ⟨_TRANSFORMER_FINAL_NORM, str "b", ⟨.float32, [1], [0]⟩⟩], _, by decide, rfl, ?_⟩
  decide

theorem claim_C1_key_uniqueness_witness :
    ∃ pairs : List (Str × NDArray),
      convertEmits ⟨⟨1, 1, 1, 2⟩, none⟩ DType.bfloat16
        (([(SourceShape.finalNorm, (⟨.float32, [1], [0]⟩ : NDArray)),
           (SourceShape.embedInput, (⟨.float32, [1], [0]⟩ : NDArray))]).map
          (fun p => p.1.mkLeaf p.2)) = .ok pairs ∧
      (pairs.map Prod.fst).Nodup := by
  refine ⟨_, rfl, ?_⟩
  exact @claim_C1_key_uniqueness ⟨⟨1, 1, 1, 2⟩, none⟩ DType.bfloat16
    [(SourceShape.finalNorm, (⟨.float32, [1], [0]⟩ : NDArray)),
     (SourceShape.embedInput, (⟨.float32, [1], [0]⟩ : NDArray))] _
    (by intro p hp; fin_cases hp <;> trivial) (by decide) rfl

/-- Claim C5: when no vision component is configured, the destination
mapping built by `convert` from a canonical well-formed source tree
contains no key with the vision sentinel as an infix, and no key retains
the `language_model.` wrapper prefix. -/
theorem claim_C5_vision_skip {tc : Gemma3TextConfig} {dt : DType}
    {srcs : List (SourceShape × NDArray)} {m : List (Str × NDArray)}
    (hwf : ∀ p ∈ srcs, p.1.WF)
    (h : convert ⟨tc, none⟩ dt (srcs.map (fun p => p.1.mkLeaf p.2)) = .ok m) :
    ∀ q ∈ m.map Prod.fst,
      ¬ str "SigLiPFromPatches_" <:+: q ∧ ¬ str "language_model." <+: q := by
  intro q hq
  obtain ⟨pairs, he, rfl⟩ := convert_ok_elim h
  rcases foldl_upsert_keys pairs [] q hq with h0 | hpairs
  · exact absurd h0 (List.not_mem_nil q)
  · obtain ⟨p, hp, hmem⟩ := convertEmits_keys_mem hwf he q hpairs
    exact leafKeys_false_clean (hwf p hp) hmem

theorem claim_C5_vision_skip_witness :
    ∃ m : List (Str × NDArray),
      convert ⟨⟨1, 1, 1, 2⟩, none⟩ DType.bfloat16
        (([(SourceShape.finalNorm, (⟨.float32, [1], [0]⟩ : NDArray))]).map
          (fun p => p.1.mkLeaf p.2)) = .ok m ∧
      ∀ q ∈ m.map Prod.fst,
        ¬ str "SigLiPFromPatches_" <:+: q ∧ ¬ str "language_model." <+: q := by
  refine ⟨_, rfl, ?_⟩
  exact @claim_C5_vision_skip ⟨1, 1, 1, 2⟩ DType.bfloat16
    [(SourceShape.finalNorm, (⟨.float32, [1], [0]⟩ : NDArray))] _
    (by intro p hp; fin_cases hp <;> trivial) rfl

end Gemma3
